import Mathlib

/-!
Verification of the collection reconciler in src/main.py
(class PlexCollectionMaker) against its natural-language specification.

Strings of the Python program are modelled as `List Char`; Python's
byte-for-byte comparisons of utf-8 encodings coincide with equality of the
character lists because utf-8 encoding is injective.  Python exceptions are
modelled by the error type `PyError`; calls into the remote server are
modelled by the function fields of `Library`, and every remote mutation the
program issues is recorded as a `PlexOp` in a trace.
-/

/-- Shorthand turning a string literal into the character list that models
the corresponding Python string. -/
def strL (s : String) : List Char := s.toList

/-- The opening curly-brace character. -/
def lbraceC : Char := Char.ofNat 123

/-- The closing curly-brace character. -/
def rbraceC : Char := Char.ofNat 125

/-- Python `hay.find(needle) != -1`: `needle` occurs as a contiguous
substring of `hay` (our needles are always non-empty). -/
def containsSub (needle hay : List Char) : Bool :=
  hay.tails.any (fun t => needle.isPrefixOf t)

theorem containsSub_iff (needle hay : List Char) :
    containsSub needle hay = true ↔ needle <:+: hay := by
  unfold containsSub
  rw [List.any_eq_true]
  constructor
  · rintro ⟨t, ht, hp⟩
    rw [List.mem_tails] at ht
    rw [List.isPrefixOf_iff_prefix] at hp
    exact hp.isInfix.trans ht.isInfix
  · intro h
    rcases List.infix_iff_prefix_suffix.mp h with ⟨t, hp, hs⟩
    exact ⟨t, (List.mem_tails _ _).mpr hs, List.isPrefixOf_iff_prefix.mpr hp⟩

/-- Prepend a character to the first block of a split result (the
accumulation step of a left-to-right scan). -/
def consHead (x : Char) : List (List Char) → List (List Char)
  | [] => [[x]]
  | r :: rs => (x :: r) :: rs

/-- Fuel-driven left-to-right scan implementing Python `s.split(sep)` for a
non-empty separator: at each position, if `sep` starts here, close the
current block and continue after the separator, else move one character.
The fuel only serves to make the recursion structural; it is always called
with fuel at least the length of the input, which is sufficient. -/
def pySplitF (sep : List Char) : Nat → List Char → List (List Char)
  | _, [] => [[]]
  | 0, xs => [xs]
  | Nat.succ f, x :: xs =>
    if sep ≠ [] ∧ sep.isPrefixOf (x :: xs) then
      [] :: pySplitF sep f (xs.drop (sep.length - 1))
    else consHead x (pySplitF sep f xs)

/-- Python `s.split(sep)` for a non-empty separator (our program never
splits on an empty separator). -/
def pySplit (sep xs : List Char) : List (List Char) :=
  pySplitF sep xs.length xs

/-- Python `s.split(sep)[0]`. -/
def pyIdx0 (sep xs : List Char) : List Char :=
  (pySplit sep xs).headD []

/-- Python `s.split(sep)[-1]`. -/
def pyIdxLast (sep xs : List Char) : List Char :=
  (pySplit sep xs).getLastD []

/-- Python `s.split()[0]`: first maximal run of non-whitespace characters,
`none` when there is none (Python raises IndexError there). -/
def pyWsFirst (xs : List Char) : Option (List Char) :=
  match xs.dropWhile (fun ch => ch.isWhitespace) with
  | [] => none
  | ch :: rest => some (ch :: rest.takeWhile (fun ch2 => !(ch2.isWhitespace)))

theorem pySplitF_fuel (sep : List Char) :
    ∀ f g xs, xs.length ≤ f → xs.length ≤ g →
      pySplitF sep f xs = pySplitF sep g xs := by
  intro f
  induction f with
  | zero =>
    intro g xs hf _
    have : xs = [] := List.length_eq_zero.mp (Nat.le_zero.mp hf)
    subst this
    cases g <;> rfl
  | succ f ih =>
    intro g xs hf hg
    cases xs with
    | nil => cases g <;> rfl
    | cons x xs1 =>
      cases g with
      | zero => exact absurd hg (by simp)
      | succ g1 =>
        simp only [pySplitF]
        by_cases hc : sep ≠ [] ∧ sep.isPrefixOf (x :: xs1)
        · simp only [if_pos hc]
          have hlen : (xs1.drop (sep.length - 1)).length ≤ xs1.length := by
            rw [List.length_drop]; omega
          have hf1 : (xs1.drop (sep.length - 1)).length ≤ f := by
            simp only [List.length_cons] at hf; omega
          have hg1 : (xs1.drop (sep.length - 1)).length ≤ g1 := by
            simp only [List.length_cons] at hg; omega
          rw [ih _ _ hf1 hg1]
        · simp only [if_neg hc]
          have hf1 : xs1.length ≤ f := by
            simp only [List.length_cons] at hf; omega
          have hg1 : xs1.length ≤ g1 := by
            simp only [List.length_cons] at hg; omega
          rw [ih _ _ hf1 hg1]

theorem pySplit_nil (sep : List Char) : pySplit sep [] = [[]] := rfl

theorem pySplit_cons_pos (sep : List Char) (x : Char) (xs : List Char)
    (h0 : sep ≠ []) (h : sep.isPrefixOf (x :: xs)) :
    pySplit sep (x :: xs) = [] :: pySplit sep (xs.drop (sep.length - 1)) := by
  unfold pySplit
  simp only [List.length_cons, pySplitF, if_pos (And.intro h0 h)]
  congr 1
  exact pySplitF_fuel sep xs.length (xs.drop (sep.length - 1)).length _
    (by rw [List.length_drop]; omega) (le_refl _)

theorem pySplit_cons_neg (sep : List Char) (x : Char) (xs : List Char)
    (h : ¬ (sep ≠ [] ∧ sep.isPrefixOf (x :: xs))) :
    pySplit sep (x :: xs) = consHead x (pySplit sep xs) := by
  unfold pySplit
  simp only [List.length_cons, pySplitF, if_neg h]

theorem consHead_ne_nil (x : Char) (L : List (List Char)) : consHead x L ≠ [] := by
  cases L <;> simp [consHead]

theorem pySplit_ne_nil (sep xs : List Char) : pySplit sep xs ≠ [] := by
  induction xs with
  | nil => simp [pySplit_nil]
  | cons x xs1 ih =>
    by_cases hc : sep ≠ [] ∧ sep.isPrefixOf (x :: xs1)
    · rw [pySplit_cons_pos sep x xs1 hc.1 hc.2]; simp
    · rw [pySplit_cons_neg sep x xs1 hc]; exact consHead_ne_nil x _

theorem pySplit_no_occurrence (sep xs : List Char) (h : ¬ sep <:+: xs) :
    pySplit sep xs = [xs] := by
  induction xs with
  | nil => exact pySplit_nil sep
  | cons x xs1 ih =>
    have hsep : sep ≠ [] := by
      rintro rfl; exact h List.nil_infix
    have hpre : ¬ sep.isPrefixOf (x :: xs1) := by
      intro hp
      exact h ((List.isPrefixOf_iff_prefix.mp hp).isInfix)
    rw [pySplit_cons_neg sep x xs1 (by tauto)]
    have : ¬ sep <:+: xs1 := fun hi => h (List.infix_cons hi)
    rw [ih this]
    rfl

theorem two_le_length_pySplit (sep xs : List Char) (h0 : sep ≠ [])
    (h : sep <:+: xs) : 2 ≤ (pySplit sep xs).length := by
  induction xs with
  | nil =>
    exact absurd (List.eq_nil_of_infix_nil h) h0
  | cons x xs1 ih =>
    by_cases hpre : sep.isPrefixOf (x :: xs1)
    · rw [pySplit_cons_pos sep x xs1 h0 hpre]
      have := pySplit_ne_nil sep (xs1.drop (sep.length - 1))
      simp only [List.length_cons]
      have : 1 ≤ (pySplit sep (xs1.drop (sep.length - 1))).length :=
        List.length_pos.mpr this
      omega
    · rw [pySplit_cons_neg sep x xs1 (by tauto)]
      have hx : sep <:+: xs1 := by
        rcases List.infix_cons_iff.mp h with hp | hi
        · exact absurd (List.isPrefixOf_iff_prefix.mpr hp) hpre
        · exact hi
      have h2 := ih hx
      rcases hL : pySplit sep xs1 with _ | ⟨r, rs⟩
      · exact absurd hL (pySplit_ne_nil sep xs1)
      · rw [hL] at h2
        simpa [consHead] using h2

theorem singleton_infix_iff (a : Char) (l : List Char) : [a] <:+: l ↔ a ∈ l := by
  constructor
  · rintro ⟨s, t, rfl⟩; simp
  · intro h
    rcases List.append_of_mem h with ⟨s, t, rfl⟩
    exact ⟨s, t, by simp⟩

theorem getLastD_consHead (x : Char) (L : List (List Char)) (h : 2 ≤ L.length) :
    (consHead x L).getLastD [] = L.getLastD [] := by
  match L with
  | [] => simp at h
  | [r] => simp at h
  | r :: r2 :: rs => simp [consHead, List.getLastD_cons]

/-- A separator whose head character occurs nowhere else in it cannot match
strictly straddling the boundary into its own occurrence: if it matches as a
prefix of `a ++ sep ++ rest` with `a` non-empty, the match lies inside `a`. -/
theorem marker_prefix_length_le (c : Char) (cs : List Char) (hc : c ∉ cs)
    (a rest : List Char) (ha : a ≠ [])
    (h : (c :: cs).isPrefixOf (a ++ ((c :: cs) ++ rest))) :
    (c :: cs).length ≤ a.length := by
  by_contra hlt
  push_neg at hlt
  rcases List.isPrefixOf_iff_prefix.mp h with ⟨t, ht⟩
  rcases a with _ | ⟨x, a1⟩
  · exact ha rfl
  · simp only [List.length_cons] at hlt
    have hx : x = c := by
      have := congrArg (fun l => l.headD ' ') ht
      simpa using this.symm
    rw [hx] at ht
    have heq : cs ++ t = a1 ++ ((c :: cs) ++ rest) := by
      simpa using ht
    have hlen1 : a1.length < cs.length := by omega
    have h1 : (cs ++ t)[a1.length]? = cs[a1.length]? :=
      List.getElem?_append_left hlen1
    have h2 : (a1 ++ ((c :: cs) ++ rest))[a1.length]? = some c := by
      rw [List.getElem?_append_right (Nat.le_refl _)]
      simp
    rw [heq, h2] at h1
    have : c ∈ cs := by
      rcases List.getElem?_eq_some_iff.mp h1.symm with ⟨hlt2, he⟩
      exact he ▸ List.getElem_mem hlt2
    exact hc this

theorem pySplit_marker_head (c : Char) (cs tail : List Char)
    (ht : ¬ (c :: cs) <:+: tail) :
    pySplit (c :: cs) ((c :: cs) ++ tail) = [[], tail] := by
  have hpre : (c :: cs).isPrefixOf (c :: (cs ++ tail)) := by
    rw [List.isPrefixOf_iff_prefix]
    exact (List.prefix_append (c :: cs) tail).trans (by simp)
  rw [show (c :: cs) ++ tail = c :: (cs ++ tail) from rfl]
  rw [pySplit_cons_pos _ _ _ (by simp) hpre]
  rw [List.length_cons, Nat.add_sub_cancel, List.drop_left]
  rw [pySplit_no_occurrence _ _ ht]

/-- Core lemma behind the identifier extractor: splitting on a marker whose
head character is unique within it, over a string of the form
`p ++ marker ++ tail` where the marker does not reoccur in `tail`, the last
block of the split is exactly `tail` (Python `s.split(marker)[-1]`). -/
theorem getLastD_pySplit_marker (c : Char) (cs tail : List Char) (hc : c ∉ cs)
    (ht : ¬ (c :: cs) <:+: tail) :
    ∀ n p, p.length ≤ n →
      ((pySplit (c :: cs) (p ++ ((c :: cs) ++ tail))).getLastD []) = tail := by
  intro n
  induction n with
  | zero =>
    intro p hp
    have : p = [] := List.length_eq_zero.mp (Nat.le_zero.mp hp)
    subst this
    rw [List.nil_append, pySplit_marker_head c cs tail ht]
    simp [List.getLastD_cons]
  | succ n ih =>
    intro p hp
    rcases p with _ | ⟨x, p1⟩
    · rw [List.nil_append, pySplit_marker_head c cs tail ht]
      simp [List.getLastD_cons]
    · rw [show (x :: p1) ++ ((c :: cs) ++ tail) = x :: (p1 ++ ((c :: cs) ++ tail)) from rfl]
      by_cases hpre : (c :: cs).isPrefixOf (x :: (p1 ++ ((c :: cs) ++ tail)))
      · have hle : (c :: cs).length ≤ (x :: p1).length := by
          apply marker_prefix_length_le c cs hc (x :: p1) tail (by simp)
          simpa using hpre
        simp only [List.length_cons] at hle
        rw [pySplit_cons_pos _ _ _ (by simp) hpre]
        have hdrop : (p1 ++ ((c :: cs) ++ tail)).drop ((c :: cs).length - 1) =
            (p1.drop cs.length) ++ ((c :: cs) ++ tail) := by
          rw [List.length_cons, Nat.add_sub_cancel]
          exact List.drop_append_of_le_length (by omega)
        rw [hdrop, List.getLastD_cons]
        apply ih
        rw [List.length_drop]
        simp only [List.length_cons] at hp
        omega
      · rw [pySplit_cons_neg _ _ _ (by tauto)]
        rw [getLastD_consHead]
        · apply ih
          simp only [List.length_cons] at hp
          omega
        · apply two_le_length_pySplit _ _ (by simp)
          calc (c :: cs) <:+: ((c :: cs) ++ tail) := (List.prefix_append _ _).isInfix
            _ <:+: p1 ++ ((c :: cs) ++ tail) := (List.suffix_append _ _).isInfix.trans
                (by exact List.infix_rfl)

/-- Companion lemma: splitting on such a marker over `a ++ marker ++ b` where
the marker does not occur in `a`, the first block is exactly `a`
(Python `s.split(marker)[0]`). -/
theorem headD_pySplit_marker (c : Char) (cs b : List Char) (hc : c ∉ cs) :
    ∀ a, ¬ (c :: cs) <:+: a →
      ((pySplit (c :: cs) (a ++ ((c :: cs) ++ b))).headD []) = a := by
  intro a
  induction a with
  | nil =>
    intro _
    rw [List.nil_append]
    rw [show (c :: cs) ++ b = c :: (cs ++ b) from rfl]
    rw [pySplit_cons_pos _ _ _ (by simp)
      (by rw [List.isPrefixOf_iff_prefix]
          exact (List.prefix_append (c :: cs) b).trans (by simp))]
    simp
  | cons x a1 ih =>
    intro hna
    rw [show (x :: a1) ++ ((c :: cs) ++ b) = x :: (a1 ++ ((c :: cs) ++ b)) from rfl]
    by_cases hpre : (c :: cs).isPrefixOf (x :: (a1 ++ ((c :: cs) ++ b)))
    · exfalso
      have hle : (c :: cs).length ≤ (x :: a1).length := by
        apply marker_prefix_length_le c cs hc (x :: a1) b (by simp)
        simpa using hpre
      have hp2 : (c :: cs) <+: (x :: a1) ++ ((c :: cs) ++ b) := by
        simpa [List.isPrefixOf_iff_prefix] using hpre
      have : (c :: cs) <+: (x :: a1) :=
        List.prefix_of_prefix_length_le hp2 (List.prefix_append _ _) hle
      exact hna this.isInfix
    · rw [pySplit_cons_neg _ _ _ (by tauto)]
      have hne := pySplit_ne_nil (c :: cs) (a1 ++ ((c :: cs) ++ b))
      rcases hL : pySplit (c :: cs) (a1 ++ ((c :: cs) ++ b)) with _ | ⟨r, rs⟩
      · exact absurd hL hne
      · have hr : r = a1 := by
          have := ih (fun hi => hna (List.infix_cons hi))
          rw [hL] at this
          simpa using this
        simp [consHead, hr]

deriving instance DecidableEq for Except

/-- Python exceptions that can escape the modelled code paths. -/
inductive PyError
  | unknownType
  | indexError
  | keyError
  | notFound
deriving DecidableEq

/-- A library item (plexapi Movie or Show): title, native Plex guid, and the
id strings of its external Guid entries (the list `s.guids`). -/
structure PlexItem where
  title : List Char
  guid : List Char
  guids : List (List Char)
deriving DecidableEq

/-- A live collection as fetched from the server.  `items` models the member
list returned by `Collection.items()` and `labels` the tags of
`Collection.labels`. -/
structure PlexCollection where
  title : List Char
  smart : Bool
  items : List PlexItem
  labels : List (List Char)
deriving DecidableEq

/-- One collection entry of the YAML configuration.  `none` models an absent
key; `some []` and `some ""` are present-but-falsy values, which the code
treats like absent ones everywhere it tests truthiness. -/
structure CollConfig where
  items : Option (List (List Char)) := none
  labels : Option (List (List Char)) := none
  titleSort : Option (List Char) := none
  contentRating : Option (List Char) := none
  summary : Option (List Char) := none
  poster : Option (List Char) := none
  mode : Option (List Char) := none
  sort : Option (List Char) := none
deriving DecidableEq

/-- The remote library as the program reads it: its section type
("movie" or "show"), `getGuid`, `search(title=...)`, and
`collection(title)` (NotFound is modelled by `none` / `[]`). -/
structure Library where
  libType : List Char
  byGuid : List Char → Option PlexItem
  search : List Char → List PlexItem
  coll : List Char → Option PlexCollection

/-- Every remote mutation the program can issue, tagged with the title of the
collection it addresses. -/
inductive PlexOp
  | createCollection (title : List Char) (items : List PlexItem)
  | addItems (title : List Char) (items : List PlexItem)
  | removeItems (title : List Char) (items : List PlexItem)
  | delete (title : List Char)
  | editSortTitle (title : List Char) (v : List Char)
  | editContentRating (title : List Char) (v : List Char)
  | editSummary (title : List Char) (v : List Char)
  | addLabel (title : List Char) (labels : List (List Char))
  | removeLabel (title : List Char) (labels : List (List Char))
  | uploadPoster (title : List Char) (v : List Char)
  | modeUpdate (title : List Char) (v : List Char)
  | sortUpdate (title : List Char) (v : List Char)
deriving DecidableEq

/-- The collection title an operation addresses. -/
def PlexOp.target : PlexOp → List Char
  | .createCollection t _ => t
  | .addItems t _ => t
  | .removeItems t _ => t
  | .delete t => t
  | .editSortTitle t _ => t
  | .editContentRating t _ => t
  | .editSummary t _ => t
  | .addLabel t _ => t
  | .removeLabel t _ => t
  | .uploadPoster t _ => t
  | .modeUpdate t _ => t
  | .sortUpdate t _ => t

/-- The per-kind identifier source preference lists of `get_item_guid`
(`lib_sources`); `none` models the KeyError for an unknown kind. -/
def guidSources (lib_type : List Char) : Option (List (List Char)) :=
  if lib_type = strL "movie" then some [strL "tmdb", strL "imdb", strL "plex"]
  else if lib_type = strL "show" then some [strL "tvdb", strL "tmdb", strL "plex"]
  else none

/-- The source loop of `get_item_guid` (src/main.py:156-168): skip sources
whose name does not occur in the string; for the plex source take the word
after "plex://"; otherwise take the text between the marker
(open brace, source name, hyphen) and the next closing brace; prefix the
source and "://" when `full` is set; fall through to "-1". -/
def guidLoop (title : List Char) (full : Bool) : List (List Char) → Except PyError (List Char)
  | [] => .ok (strL "-1")
  | source :: rest =>
    if containsSub source title = false then guidLoop title full rest
    else
      match (if source = strL "plex" then
               match pyWsFirst (pyIdxLast (strL "plex://") title) with
               | none => Except.error PyError.indexError
               | some g => Except.ok g
             else
               Except.ok (pyIdx0 [rbraceC] (pyIdxLast (lbraceC :: (source ++ ['-'])) title))) with
      | .error e => .error e
      | .ok guid => .ok (if full then source ++ strL "://" ++ guid else guid)

/-- src/main.py:130-170, `get_item_guid`. -/
def get_item_guid (title lib_type : List Char) (full : Bool) : Except PyError (List Char) :=
  match guidSources lib_type with
  | none => .error .unknownType
  | some sources => guidLoop title full sources

/-- The title-only prefix of an item reference:
Python `item.split(" plex://")[0].split(" {")[0]`. -/
def stripTitle (x : List Char) : List Char :=
  pyIdx0 (' ' :: lbraceC :: []) (pyIdx0 (strL " plex://") x)

/-- Resolution of one configured item reference (used identically at
src/main.py:200-234 and 330-373): try `getGuid` on the full extracted
identifier; on NotFound fall back to an exact-title search; on NotFound
again skip the item (`ok none`).  Exceptions other than NotFound propagate. -/
def resolveItem (lib : Library) (item : List Char) : Except PyError (Option PlexItem) :=
  match get_item_guid item lib.libType true with
  | .error e => .error e
  | .ok g =>
    match lib.byGuid g with
    | some it => .ok (some it)
    | none =>
      match (lib.search (stripTitle item)).find? (fun x => x.title = stripTitle item) with
      | some it => .ok (some it)
      | none => .ok none

/-- The creation loop body over the configured item list: resolved items are
collected in order, unresolved references are skipped with a warning. -/
def resolveItemsAcc (lib : Library) : List (List Char) → Except PyError (List PlexItem)
  | [] => .ok []
  | i :: is =>
    match resolveItem lib i with
    | .error e => .error e
    | .ok none => resolveItemsAcc lib is
    | .ok (some it) =>
      match resolveItemsAcc lib is with
      | .error e => .error e
      | .ok rest => .ok (it :: rest)

/-- One conditional field application: the single call when the key is
present and truthy (a non-empty value), nothing otherwise. -/
def optFieldOp {α : Type} (mk : List α → PlexOp) : Option (List α) → List PlexOp
  | some (a :: b) => [mk (a :: b)]
  | _ => []

/-- The scalar field updates applied before the label block, in program
order (sort title, content rating, summary), each only when the key is
present and truthy (src/main.py:242-261 and 413-433). -/
def scalarPre (cfg : CollConfig) (t : List Char) : List PlexOp :=
  optFieldOp (PlexOp.editSortTitle t) cfg.titleSort ++
  optFieldOp (PlexOp.editContentRating t) cfg.contentRating ++
  optFieldOp (PlexOp.editSummary t) cfg.summary

/-- The scalar field updates applied after the label block, in program
order (poster, mode, sort), each only when the key is present and truthy.
The poster value is always passed as the filepath argument of
`uploadPoster` (src/main.py:269-275 and 452-456). -/
def scalarPost (cfg : CollConfig) (t : List Char) : List PlexOp :=
  optFieldOp (PlexOp.uploadPoster t) cfg.poster ++
  optFieldOp (PlexOp.modeUpdate t) cfg.mode ++
  optFieldOp (PlexOp.sortUpdate t) cfg.sort

/-- Field application order in the creation path: the whole configured label
list is added in one call (src/main.py:263-268). -/
def createFieldOps (cfg : CollConfig) (t : List Char) : List PlexOp :=
  scalarPre cfg t ++
  optFieldOp (PlexOp.addLabel t) cfg.labels ++
  scalarPost cfg t

/-- The label diff block of the update path (src/main.py:434-451): only when
the labels key is present and truthy, add configured labels missing from the
current tags and remove current tags missing from the configured list, each
call only when its list is non-empty. -/
def labelOps (cfg : CollConfig) (d : PlexCollection) : List PlexOp :=
  match cfg.labels with
  | some (a :: b) =>
    (if ((a :: b).filter (fun s => !(d.labels.contains s))) = [] then []
     else [PlexOp.addLabel d.title ((a :: b).filter (fun s => !(d.labels.contains s)))]) ++
    (if (d.labels.filter (fun s => !((a :: b).contains s))) = [] then []
     else [PlexOp.removeLabel d.title (d.labels.filter (fun s => !((a :: b).contains s)))])
  | _ => []

/-- Field application order in the update path. -/
def editFieldOps (cfg : CollConfig) (d : PlexCollection) : List PlexOp :=
  scalarPre cfg d.title ++ labelOps cfg d ++ scalarPost cfg d.title

theorem containsSub_eq_false_iff (needle hay : List Char) :
    containsSub needle hay = false ↔ ¬ needle <:+: hay := by
  rw [← containsSub_iff]
  cases containsSub needle hay <;> simp

theorem guidLoop_cons_notfound (title : List Char) (full : Bool) (source : List Char)
    (rest : List (List Char)) (h : containsSub source title = false) :
    guidLoop title full (source :: rest) = guidLoop title full rest := by
  simp [guidLoop, h]

theorem guidLoop_cons_found_nonplex (title : List Char) (full : Bool) (source : List Char)
    (rest : List (List Char)) (h : containsSub source title = true)
    (hp : source ≠ strL "plex") :
    guidLoop title full (source :: rest) =
      .ok (if full
           then source ++ strL "://" ++ pyIdx0 [rbraceC] (pyIdxLast (lbraceC :: (source ++ ['-'])) title)
           else pyIdx0 [rbraceC] (pyIdxLast (lbraceC :: (source ++ ['-'])) title)) := by
  simp [guidLoop, h, hp]

theorem guidLoop_cons_found_plex (title : List Char) (full : Bool)
    (rest : List (List Char)) (h : containsSub (strL "plex") title = true) :
    guidLoop title full (strL "plex" :: rest) =
      match pyWsFirst (pyIdxLast (strL "plex://") title) with
      | none => .error .indexError
      | some g => .ok (if full then strL "plex" ++ strL "://" ++ g else g) := by
  cases hws : pyWsFirst (pyIdxLast (strL "plex://") title) <;> simp [guidLoop, h, hws]

/-- The marker the code builds for the moviedb source. -/
def tmdbMarker : List Char := lbraceC :: (strL "tmdb" ++ ['-'])

/-- The marker the code builds for the tv-db source. -/
def tvdbMarker : List Char := lbraceC :: (strL "tvdb" ++ ['-'])

/-- Extraction through the two splits of the non-plex branch, for a title of
the shape `p ++ marker ++ mid ++ closing-brace ++ s`. -/
theorem extract_between_marker (source p mid s : List Char)
    (hlb : lbraceC ∉ source ++ ['-'])
    (hb : rbraceC ∉ mid)
    (hm : ¬ (lbraceC :: (source ++ ['-'])) <:+: (mid ++ rbraceC :: s)) :
    pyIdx0 [rbraceC] (pyIdxLast (lbraceC :: (source ++ ['-']))
      (p ++ ((lbraceC :: (source ++ ['-'])) ++ (mid ++ rbraceC :: s)))) = mid := by
  have h1 : pyIdxLast (lbraceC :: (source ++ ['-']))
      (p ++ ((lbraceC :: (source ++ ['-'])) ++ (mid ++ rbraceC :: s))) = mid ++ rbraceC :: s := by
    unfold pyIdxLast
    exact getLastD_pySplit_marker lbraceC (source ++ ['-']) (mid ++ rbraceC :: s) hlb hm
      p.length p (le_refl _)
  rw [h1]
  unfold pyIdx0
  have h2 := headD_pySplit_marker rbraceC [] s (by simp) mid
    (by rw [singleton_infix_iff]; exact hb)
  simpa using h2

/-- C6: for a reference string containing a moviedb-style marker and kind
"movie", the extractor in bare form returns exactly the characters between
the opening marker and the next closing brace, and in full form that
identifier prefixed with the source name and "://"; the preference lists are
movie: moviedb, imdb, plex-internal and show: tv-db, moviedb, plex-internal,
the first source found in the string winning (here the marker's own source
name is found first, whatever the rest of the string holds, which the
arbitrary prefix `p` and suffix `s` witness). -/
theorem c6_guid_extraction :
    (∀ p mid s : List Char, rbraceC ∉ mid →
        ¬ tmdbMarker <:+: (mid ++ rbraceC :: s) →
        get_item_guid (p ++ (tmdbMarker ++ (mid ++ rbraceC :: s))) (strL "movie") false
            = .ok mid ∧
        get_item_guid (p ++ (tmdbMarker ++ (mid ++ rbraceC :: s))) (strL "movie") true
            = .ok (strL "tmdb" ++ strL "://" ++ mid)) ∧
    (∀ p mid s : List Char, rbraceC ∉ mid →
        ¬ tvdbMarker <:+: (mid ++ rbraceC :: s) →
        get_item_guid (p ++ (tvdbMarker ++ (mid ++ rbraceC :: s))) (strL "show") false
            = .ok mid ∧
        get_item_guid (p ++ (tvdbMarker ++ (mid ++ rbraceC :: s))) (strL "show") true
            = .ok (strL "tvdb" ++ strL "://" ++ mid)) := by
  constructor
  · intro p mid s hb hm
    have hct : containsSub (strL "tmdb") (p ++ (tmdbMarker ++ (mid ++ rbraceC :: s))) = true := by
      rw [containsSub_iff]
      have h1 : strL "tmdb" <:+: tmdbMarker := ⟨[lbraceC], ['-'], by decide⟩
      exact h1.trans ⟨p, mid ++ rbraceC :: s, by simp⟩
    have hext : pyIdx0 [rbraceC] (pyIdxLast (lbraceC :: (strL "tmdb" ++ ['-']))
        (p ++ (tmdbMarker ++ (mid ++ rbraceC :: s)))) = mid := by
      exact extract_between_marker (strL "tmdb") p mid s (by decide) hb
        (by simpa [tmdbMarker] using hm)
    constructor
    · rw [show get_item_guid (p ++ (tmdbMarker ++ (mid ++ rbraceC :: s))) (strL "movie") false
          = guidLoop (p ++ (tmdbMarker ++ (mid ++ rbraceC :: s))) false
              [strL "tmdb", strL "imdb", strL "plex"] from by simp [get_item_guid, guidSources]]
      rw [guidLoop_cons_found_nonplex _ _ _ _ hct (by decide)]
      simp [hext]
    · rw [show get_item_guid (p ++ (tmdbMarker ++ (mid ++ rbraceC :: s))) (strL "movie") true
          = guidLoop (p ++ (tmdbMarker ++ (mid ++ rbraceC :: s))) true
              [strL "tmdb", strL "imdb", strL "plex"] from by simp [get_item_guid, guidSources]]
      rw [guidLoop_cons_found_nonplex _ _ _ _ hct (by decide)]
      simp [hext]
  · intro p mid s hb hm
    have hct : containsSub (strL "tvdb") (p ++ (tvdbMarker ++ (mid ++ rbraceC :: s))) = true := by
      rw [containsSub_iff]
      have h1 : strL "tvdb" <:+: tvdbMarker := ⟨[lbraceC], ['-'], by decide⟩
      exact h1.trans ⟨p, mid ++ rbraceC :: s, by simp⟩
    have hext : pyIdx0 [rbraceC] (pyIdxLast (lbraceC :: (strL "tvdb" ++ ['-']))
        (p ++ (tvdbMarker ++ (mid ++ rbraceC :: s)))) = mid := by
      exact extract_between_marker (strL "tvdb") p mid s (by decide) hb
        (by simpa [tvdbMarker] using hm)
    have hgsS : guidSources (strL "show") = some [strL "tvdb", strL "tmdb", strL "plex"] := by
      decide
    constructor
    · simp only [get_item_guid, hgsS]
      rw [guidLoop_cons_found_nonplex _ _ _ _ hct (by decide)]
      simp [hext]
    · simp only [get_item_guid, hgsS]
      rw [guidLoop_cons_found_nonplex _ _ _ _ hct (by decide)]
      simp [hext]

theorem c6_guid_extraction_witness :
    rbraceC ∉ strL "123" ∧
    ¬ tmdbMarker <:+: (strL "123" ++ rbraceC :: []) ∧
    get_item_guid (strL "Dracula " ++ (tmdbMarker ++ (strL "123" ++ rbraceC :: [])))
        (strL "movie") false = .ok (strL "123") ∧
    get_item_guid (strL "Dracula " ++ (tmdbMarker ++ (strL "123" ++ rbraceC :: [])))
        (strL "movie") true = .ok (strL "tmdb" ++ strL "://" ++ strL "123") :=
  ⟨by decide, by decide,
    (c6_guid_extraction.1 (strL "Dracula ") (strL "123") [] (by decide) (by decide)).1,
    (c6_guid_extraction.1 (strL "Dracula ") (strL "123") [] (by decide) (by decide)).2⟩

theorem guidLoop_present_ne_sentinel (title : List Char) :
    ∀ sources : List (List Char),
      (∀ src ∈ sources, ∃ c2 cs2, src = c2 :: cs2 ∧ c2 ≠ '-') →
      (∃ src ∈ sources, containsSub src title = true) →
      guidLoop title true sources ≠ .ok (strL "-1") := by
  intro sources
  induction sources with
  | nil =>
    rintro _ ⟨src, h, _⟩
    exact absurd h (List.not_mem_nil _)
  | cons src rest ih =>
    intro hheads hex
    by_cases hc : containsSub src title = true
    · rcases hheads src (List.mem_cons_self _ _) with ⟨c2, cs2, rfl, hc2⟩
      by_cases hpl : (c2 :: cs2) = strL "plex"
      · rw [hpl] at hc ⊢
        rw [guidLoop_cons_found_plex _ _ _ hc]
        cases hws : pyWsFirst (pyIdxLast (strL "plex://") title) with
        | none => simp
        | some g =>
          simp only [if_pos rfl]
          intro hcontra
          have := Except.ok.inj hcontra
          have h5 := congrArg (fun l => l.headD ' ') this
          simp [strL] at h5
      · rw [guidLoop_cons_found_nonplex _ _ _ _ hc hpl]
        simp only [if_pos rfl]
        intro hcontra
        have := Except.ok.inj hcontra
        have hc2' : c2 = '-' := by
          have := congrArg (fun l => l.headD ' ') this
          simpa [strL] using this
        exact hc2 hc2'
    · have hfalse : containsSub src title = false := by
        cases h2 : containsSub src title
        · rfl
        · exact absurd h2 hc
      rw [guidLoop_cons_notfound _ _ _ _ hfalse]
      apply ih (fun s hs => hheads s (List.mem_cons_of_mem _ hs))
      rcases hex with ⟨s2, hs2, hcs2⟩
      rcases List.mem_cons.mp hs2 with rfl | hmem
      · exact absurd hcs2 hc
      · exact ⟨s2, hmem, hcs2⟩

/-- C7, corrected: if none of the configured source names occurs in the
reference string, both bare and full form return the sentinel "-1", for both
movie and show kinds; conversely, in full form a found source never yields
the sentinel.  The bare-form converse is false: a reference carrying a
marker whose embedded identifier is itself "-1" extracts the sentinel (see
the counterexample). -/
theorem c7_sentinel_amended :
    (∀ title : List Char, ∀ full : Bool,
        ¬ strL "tmdb" <:+: title → ¬ strL "imdb" <:+: title →
        ¬ strL "plex" <:+: title → ¬ strL "tvdb" <:+: title →
        get_item_guid title (strL "movie") full = .ok (strL "-1") ∧
        get_item_guid title (strL "show") full = .ok (strL "-1")) ∧
    (∀ title : List Char,
        (strL "tmdb" <:+: title ∨ strL "imdb" <:+: title ∨ strL "plex" <:+: title) →
        get_item_guid title (strL "movie") true ≠ .ok (strL "-1")) ∧
    (∀ title : List Char,
        (strL "tvdb" <:+: title ∨ strL "tmdb" <:+: title ∨ strL "plex" <:+: title) →
        get_item_guid title (strL "show") true ≠ .ok (strL "-1")) := by
  have hgsM : guidSources (strL "movie") = some [strL "tmdb", strL "imdb", strL "plex"] := by
    decide
  have hgsS : guidSources (strL "show") = some [strL "tvdb", strL "tmdb", strL "plex"] := by
    decide
  refine ⟨?_, ?_, ?_⟩
  · intro title full h1 h2 h3 h4
    constructor
    · simp only [get_item_guid, hgsM]
      rw [guidLoop_cons_notfound _ _ _ _ ((containsSub_eq_false_iff _ _).mpr h1)]
      rw [guidLoop_cons_notfound _ _ _ _ ((containsSub_eq_false_iff _ _).mpr h2)]
      rw [guidLoop_cons_notfound _ _ _ _ ((containsSub_eq_false_iff _ _).mpr h3)]
      rfl
    · simp only [get_item_guid, hgsS]
      rw [guidLoop_cons_notfound _ _ _ _ ((containsSub_eq_false_iff _ _).mpr h4)]
      rw [guidLoop_cons_notfound _ _ _ _ ((containsSub_eq_false_iff _ _).mpr h1)]
      rw [guidLoop_cons_notfound _ _ _ _ ((containsSub_eq_false_iff _ _).mpr h3)]
      rfl
  · intro title hex
    simp only [get_item_guid, hgsM]
    apply guidLoop_present_ne_sentinel
    · intro src hs
      simp only [List.mem_cons] at hs
      rcases hs with rfl | rfl | rfl | h
      · exact ⟨'t', strL "mdb", by decide, by decide⟩
      · exact ⟨'i', strL "mdb", by decide, by decide⟩
      · exact ⟨'p', strL "lex", by decide, by decide⟩
      · exact absurd h (List.not_mem_nil _)
    · rcases hex with h | h | h
      · exact ⟨strL "tmdb", by simp, (containsSub_iff _ _).mpr h⟩
      · exact ⟨strL "imdb", by simp, (containsSub_iff _ _).mpr h⟩
      · exact ⟨strL "plex", by simp, (containsSub_iff _ _).mpr h⟩
  · intro title hex
    simp only [get_item_guid, hgsS]
    apply guidLoop_present_ne_sentinel
    · intro src hs
      simp only [List.mem_cons] at hs
      rcases hs with rfl | rfl | rfl | h
      · exact ⟨'t', strL "vdb", by decide, by decide⟩
      · exact ⟨'t', strL "mdb", by decide, by decide⟩
      · exact ⟨'p', strL "lex", by decide, by decide⟩
      · exact absurd h (List.not_mem_nil _)
    · rcases hex with h | h | h
      · exact ⟨strL "tvdb", by simp, (containsSub_iff _ _).mpr h⟩
      · exact ⟨strL "tmdb", by simp, (containsSub_iff _ _).mpr h⟩
      · exact ⟨strL "plex", by simp, (containsSub_iff _ _).mpr h⟩

/-- C7, counterexample to the claim as stated: the reference
"A \x7btmdb--1\x7d" does contain a moviedb marker (the source name occurs in
the string), yet the bare form returns the sentinel "-1", because the
embedded identifier is itself the characters "-1". -/
theorem c7_counterexample :
    get_item_guid (strL "A \x7btmdb--1\x7d") (strL "movie") false = .ok (strL "-1") ∧
    containsSub (strL "tmdb") (strL "A \x7btmdb--1\x7d") = true ∧
    tmdbMarker <:+: strL "A \x7btmdb--1\x7d" := by
  refine ⟨by decide, by decide, by decide⟩

theorem c7_sentinel_amended_witness :
    (¬ strL "tmdb" <:+: strL "abc") ∧ (¬ strL "imdb" <:+: strL "abc") ∧
    (¬ strL "plex" <:+: strL "abc") ∧ (¬ strL "tvdb" <:+: strL "abc") ∧
    get_item_guid (strL "abc") (strL "movie") false = .ok (strL "-1") ∧
    get_item_guid (strL "abc") (strL "show") false = .ok (strL "-1") ∧
    (strL "tmdb" <:+: strL "x \x7btmdb-5\x7d") ∧
    get_item_guid (strL "x \x7btmdb-5\x7d") (strL "movie") true ≠ .ok (strL "-1") :=
  ⟨by decide, by decide, by decide, by decide,
    (c7_sentinel_amended.1 (strL "abc") false (by decide) (by decide) (by decide) (by decide)).1,
    (c7_sentinel_amended.1 (strL "abc") false (by decide) (by decide) (by decide) (by decide)).2,
    by decide,
    c7_sentinel_amended.2.1 (strL "x \x7btmdb-5\x7d") (Or.inl (by decide))⟩

/-- Python `sg.id.split("://")[-1]`: the bare part of an external Guid id. -/
def bareGuid (g : List Char) : List Char := pyIdxLast (strL "://") g

/-- One iteration of the remove-phase loop over the configured item list
(src/main.py:383-394): append the bare extracted identifier of the config
reference to `config_guids`, then clear the remove flag when any of the
member's own external identifiers occurs in the reference or equals one of
the collected identifiers, or when the member's native guid occurs in the
reference.  State is (config_guids, remove flag). -/
def removeScanStep (lt : List Char) (s : PlexItem) (st : List (List Char) × Bool)
    (x : List Char) : Except PyError (List (List Char) × Bool) :=
  match get_item_guid x lt false with
  | .error e => .error e
  | .ok g =>
    .ok (st.1 ++ [g],
      if containsSub s.guid x then false
      else if s.guids.any (fun sg =>
          containsSub (bareGuid sg) x || (st.1 ++ [g]).contains (bareGuid sg)) then false
      else st.2)

/-- The remove-phase loop over all configured item references for one
member. -/
def removeScanItems (lt : List Char) (s : PlexItem) :
    List (List Char) × Bool → List (List Char) → Except PyError (List (List Char) × Bool)
  | st, [] => .ok st
  | st, x :: xs =>
    match removeScanStep lt s st x with
    | .error e => .error e
    | .ok st2 => removeScanItems lt s st2 xs

/-- The full remove decision for one member (src/main.py:380-404): run the
loop starting from flag `true`, then clear the flag when the member's title
equals some stripped configured reference. -/
def removeScan (lt : List Char) (cfgItems : List (List Char)) (s : PlexItem) :
    Except PyError Bool :=
  match removeScanItems lt s ([], true) cfgItems with
  | .error e => .error e
  | .ok st => .ok (st.2 && !((cfgItems.map stripTitle).contains s.title))

/-- The remove phase over the member list (src/main.py:377-408): members
whose flag survives are re-fetched through `getGuid` (NotFound there is
uncaught) and collected in order. -/
def removePhase (lib : Library) (cfgItems : List (List Char)) :
    List PlexItem → Except PyError (List PlexItem)
  | [] => .ok []
  | s :: rest =>
    match removeScan lib.libType cfgItems s with
    | .error e => .error e
    | .ok b =>
      if b then
        match lib.byGuid s.guid with
        | none => .error .notFound
        | some it =>
          match removePhase lib cfgItems rest with
          | .error e => .error e
          | .ok tail => .ok (it :: tail)
      else removePhase lib cfgItems rest

/-- The add phase of the update path (src/main.py:327-373): configured
references whose stripped title is not among the current member titles are
resolved like in the creation path; resolved ones are collected in order. -/
def resolveNewItems (lib : Library) (memberTitles : List (List Char)) :
    List (List Char) → Except PyError (List PlexItem)
  | [] => .ok []
  | s :: ss =>
    if memberTitles.contains (stripTitle s) then resolveNewItems lib memberTitles ss
    else
      match resolveItem lib s with
      | .error e => .error e
      | .ok none => resolveNewItems lib memberTitles ss
      | .ok (some it) =>
        match resolveNewItems lib memberTitles ss with
        | .error e => .error e
        | .ok rest => .ok (it :: rest)

/-- Sync of one existing regular collection with a truthy items list
(src/main.py:326-466): add phase, remove phase, then the field and label
updates; the add-items and remove-items calls are issued only when their
lists are non-empty.  The trace holds the calls issued before any
exception. -/
def syncExisting (lib : Library) (cfg : CollConfig) (d : PlexCollection)
    (cfgItems : List (List Char)) : List PlexOp × Option PyError :=
  match resolveNewItems lib (d.items.map PlexItem.title) cfgItems with
  | .error e => ([], some e)
  | .ok new =>
    match removePhase lib cfgItems d.items with
    | .error e => ((if new = [] then [] else [PlexOp.addItems d.title new]), some e)
    | .ok marked =>
      ((if new = [] then [] else [PlexOp.addItems d.title new]) ++
       (if marked = [] then [] else [PlexOp.removeItems d.title marked]) ++
       editFieldOps cfg d, none)

/-- Python dict lookup `self.collections_config[lib][title]` over the
configuration modelled as an association list (`none` is the KeyError
case). -/
def configLookup (config : List (List Char × CollConfig)) (t : List Char) : Option CollConfig :=
  (config.find? (fun e => decide (e.1 = t))).map Prod.snd

/-- The update-path body for one deferred collection (src/main.py:315-472):
smart collections are skipped; a truthy items list leads to the sync; an
absent or empty items list deletes the collection. -/
def syncOne (lib : Library) (config : List (List Char × CollConfig)) (d : PlexCollection) :
    List PlexOp × Option PyError :=
  if d.smart then ([], none)
  else
    match configLookup config d.title with
    | none => ([], some .keyError)
    | some cfg =>
      match cfg.items with
      | some (i :: is) => syncExisting lib cfg d (i :: is)
      | _ => ([PlexOp.delete d.title], none)

/-- src/main.py:304-472, `edit_collections` over one library: process the
deferred collections in order, stopping at the first uncaught exception. -/
def edit_collections (lib : Library) (config : List (List Char × CollConfig)) :
    List PlexCollection → List PlexOp × Option PyError
  | [] => ([], none)
  | d :: ds =>
    match syncOne lib config d with
    | (ops, some e) => (ops, some e)
    | (ops, none) =>
      match edit_collections lib config ds with
      | (ops2, r) => (ops ++ ops2, r)

/-- The creation-path body for one configured collection title
(src/main.py:187-301): a title found live is deferred to the update path
untouched; otherwise, with a truthy items list, the resolvable references
are collected and, when at least one resolved, one create call plus the
configured field applications are issued; with no or empty items, or zero
resolved items, nothing is issued (an error is printed). -/
def makeEntry (lib : Library) (e : List Char × CollConfig) :
    List PlexOp × Option PyError × Option PlexCollection :=
  match lib.coll e.1 with
  | some c => ([], none, some c)
  | none =>
    match e.2.items with
    | some (i :: is) =>
      match resolveItemsAcc lib (i :: is) with
      | .error err => ([], some err, none)
      | .ok resolved =>
        if resolved = [] then ([], none, none)
        else (PlexOp.createCollection e.1 resolved :: createFieldOps e.2 e.1, none, none)
    | _ => ([], none, none)

/-- src/main.py:172-302, `make_collections` over one library: returns the
trace, the first uncaught exception if any, and the list of found
collections deferred to the update path. -/
def make_collections (lib : Library) :
    List (List Char × CollConfig) → List PlexOp × Option PyError × List PlexCollection
  | [] => ([], none, [])
  | e :: es =>
    match makeEntry lib e with
    | (ops, some err, _) => (ops, some err, [])
    | (ops, none, found) =>
      match make_collections lib es with
      | (ops2, r, tu) => (ops ++ ops2, r, found.toList ++ tu)

/-- The edit pass of `main` for one library (src/main.py:670-673): creation
path, then, when it raised nothing, the update path on the deferred
collections. -/
def runLibrary (lib : Library) (config : List (List Char × CollConfig)) :
    List PlexOp × Option PyError :=
  match make_collections lib config with
  | (ops, some e, _) => (ops, some e)
  | (ops, none, tu) =>
    match edit_collections lib config tu with
    | (ops2, r) => (ops ++ ops2, r)

def isRemoveItemsOp : PlexOp → Bool
  | .removeItems _ _ => true
  | _ => false

def isAddLabelOp : PlexOp → Bool
  | .addLabel _ _ => true
  | _ => false

def isRemoveLabelOp : PlexOp → Bool
  | .removeLabel _ _ => true
  | _ => false

def isLabelOp (op : PlexOp) : Bool := isAddLabelOp op || isRemoveLabelOp op

def isCreateOp : PlexOp → Bool
  | .createCollection _ _ => true
  | _ => false

/-- Proof-side recomputation of the condition that clears the remove flag
somewhere along the scan, carrying the accumulated identifier list (the
error branch is irrelevant: it is only consulted under a success
hypothesis). -/
def trigB (lt : List Char) (s : PlexItem) : List (List Char) → List (List Char) → Bool
  | _, [] => false
  | cgs, x :: xs =>
    match get_item_guid x lt false with
    | .error _ => false
    | .ok g =>
      (containsSub s.guid x
        || s.guids.any (fun sg =>
             containsSub (bareGuid sg) x || (cgs ++ [g]).contains (bareGuid sg)))
        || trigB lt s (cgs ++ [g]) xs

/-- The spec-side remove condition of C1, as a decidable test: none of the
member's external identifiers occurs in or is extracted from any configured
reference, the native guid occurs in no reference, and the title matches no
stripped reference. -/
def shouldRemoveSpec (lt : List Char) (cfgItems : List (List Char)) (s : PlexItem) : Bool :=
  (cfgItems.all (fun x => s.guids.all (fun sg => !(containsSub (bareGuid sg) x)))) &&
  (s.guids.all (fun sg => cfgItems.all (fun x =>
      !(decide (get_item_guid x lt false = .ok (bareGuid sg)))))) &&
  (cfgItems.all (fun x => !(containsSub s.guid x))) &&
  !((cfgItems.map stripTitle).contains s.title)

theorem removeScanItems_flag (lt : List Char) (s : PlexItem) :
    ∀ (xs cgs0 : List (List Char)) (b0 : Bool) (st : List (List Char) × Bool),
      removeScanItems lt s (cgs0, b0) xs = .ok st →
      st.2 = (b0 && !(trigB lt s cgs0 xs)) := by
  intro xs
  induction xs with
  | nil =>
    intro cgs0 b0 st h
    simp only [removeScanItems] at h
    cases h
    simp [trigB]
  | cons x xs ih =>
    intro cgs0 b0 st h
    simp only [removeScanItems, removeScanStep] at h
    cases hg : get_item_guid x lt false with
    | error e => rw [hg] at h; exact absurd h (by simp)
    | ok g =>
      rw [hg] at h
      simp only [] at h
      have := ih (cgs0 ++ [g]) _ st h
      rw [this]
      simp only [trigB, hg]
      cases hA : containsSub s.guid x <;>
        cases hB : s.guids.any (fun sg =>
          containsSub (bareGuid sg) x || (cgs0 ++ [g]).contains (bareGuid sg)) <;>
        cases b0 <;> simp

theorem removeScanItems_ok_each (lt : List Char) (s : PlexItem) :
    ∀ (xs cgs0 : List (List Char)) (b0 : Bool) (st : List (List Char) × Bool),
      removeScanItems lt s (cgs0, b0) xs = .ok st →
      ∀ x ∈ xs, ∃ g, get_item_guid x lt false = .ok g := by
  intro xs
  induction xs with
  | nil =>
    intro _ _ _ _ x hx
    exact absurd hx (List.not_mem_nil _)
  | cons x xs ih =>
    intro cgs0 b0 st h y hy
    simp only [removeScanItems, removeScanStep] at h
    cases hg : get_item_guid x lt false with
    | error e => rw [hg] at h; exact absurd h (by simp)
    | ok g =>
      rw [hg] at h
      simp only [] at h
      rcases List.mem_cons.mp hy with rfl | hmem
      · exact ⟨g, hg⟩
      · exact ih (cgs0 ++ [g]) _ st h y hmem

theorem contains_iff_mem (l : List (List Char)) (a : List Char) :
    l.contains a = true ↔ a ∈ l := by
  simp [List.contains, List.elem_iff]

theorem trigB_of_guid_occurs (lt : List Char) (s : PlexItem) :
    ∀ (xs cgs0 : List (List Char)),
      (∀ x ∈ xs, ∃ g, get_item_guid x lt false = .ok g) →
      (∃ x ∈ xs, s.guid <:+: x) →
      trigB lt s cgs0 xs = true := by
  intro xs
  induction xs with
  | nil =>
    rintro _ _ ⟨x, hx, _⟩
    exact absurd hx (List.not_mem_nil _)
  | cons x xs ih =>
    rintro cgs0 hok ⟨y, hy, hinf⟩
    rcases hok x (List.mem_cons_self _ _) with ⟨g, hg⟩
    simp only [trigB, hg, Bool.or_eq_true]
    rcases List.mem_cons.mp hy with rfl | hmem
    · exact Or.inl (Or.inl ((containsSub_iff _ _).mpr hinf))
    · exact Or.inr (ih (cgs0 ++ [g])
        (fun z hz => hok z (List.mem_cons_of_mem _ hz)) ⟨y, hmem, hinf⟩)

theorem trigB_of_bare_occurs (lt : List Char) (s : PlexItem) :
    ∀ (xs cgs0 : List (List Char)),
      (∀ x ∈ xs, ∃ g, get_item_guid x lt false = .ok g) →
      (∃ x ∈ xs, ∃ sg ∈ s.guids, bareGuid sg <:+: x) →
      trigB lt s cgs0 xs = true := by
  intro xs
  induction xs with
  | nil =>
    rintro _ _ ⟨x, hx, _⟩
    exact absurd hx (List.not_mem_nil _)
  | cons x xs ih =>
    rintro cgs0 hok ⟨y, hy, sg, hsg, hinf⟩
    rcases hok x (List.mem_cons_self _ _) with ⟨g, hg⟩
    simp only [trigB, hg, Bool.or_eq_true]
    rcases List.mem_cons.mp hy with rfl | hmem
    · refine Or.inl (Or.inr ?_)
      rw [List.any_eq_true]
      exact ⟨sg, hsg, by rw [Bool.or_eq_true]; exact Or.inl ((containsSub_iff _ _).mpr hinf)⟩
    · exact Or.inr (ih (cgs0 ++ [g])
        (fun z hz => hok z (List.mem_cons_of_mem _ hz)) ⟨y, hmem, sg, hsg, hinf⟩)

theorem trigB_of_mem_cgs (lt : List Char) (s : PlexItem)
    (xs cgs0 : List (List Char)) (hne : xs ≠ [])
    (hok : ∀ x ∈ xs, ∃ g, get_item_guid x lt false = .ok g)
    (hm : ∃ sg ∈ s.guids, bareGuid sg ∈ cgs0) :
    trigB lt s cgs0 xs = true := by
  rcases xs with _ | ⟨x, rest⟩
  · exact absurd rfl hne
  · rcases hok x (List.mem_cons_self _ _) with ⟨g, hg⟩
    rcases hm with ⟨sg, hsg, hmem⟩
    simp only [trigB, hg, Bool.or_eq_true]
    refine Or.inl (Or.inr ?_)
    rw [List.any_eq_true]
    refine ⟨sg, hsg, ?_⟩
    rw [Bool.or_eq_true]
    exact Or.inr ((contains_iff_mem _ _).mpr (List.mem_append_left _ hmem))

theorem trigB_of_extract (lt : List Char) (s : PlexItem) :
    ∀ (xs cgs0 : List (List Char)),
      (∀ x ∈ xs, ∃ g, get_item_guid x lt false = .ok g) →
      (∃ sg ∈ s.guids, ∃ x ∈ xs, get_item_guid x lt false = .ok (bareGuid sg)) →
      trigB lt s cgs0 xs = true := by
  intro xs
  induction xs with
  | nil =>
    rintro _ _ ⟨sg, _, x, hx, _⟩
    exact absurd hx (List.not_mem_nil _)
  | cons x xs ih =>
    rintro cgs0 hok ⟨sg, hsg, y, hy, hget⟩
    rcases hok x (List.mem_cons_self _ _) with ⟨g, hg⟩
    simp only [trigB, hg, Bool.or_eq_true]
    rcases List.mem_cons.mp hy with rfl | hmem
    · refine Or.inl (Or.inr ?_)
      rw [List.any_eq_true]
      refine ⟨sg, hsg, ?_⟩
      rw [Bool.or_eq_true]
      refine Or.inr ((contains_iff_mem _ _).mpr ?_)
      have : bareGuid sg = g := by
        rw [hg] at hget
        exact (Except.ok.inj hget).symm
      rw [this]
      exact List.mem_append_right _ (List.mem_singleton.mpr rfl)
    · exact Or.inr (ih (cgs0 ++ [g])
        (fun z hz => hok z (List.mem_cons_of_mem _ hz)) ⟨sg, hsg, y, hmem, hget⟩)

theorem trigB_forward (lt : List Char) (s : PlexItem) :
    ∀ (xs cgs0 : List (List Char)),
      trigB lt s cgs0 xs = true →
      (∃ x ∈ xs, s.guid <:+: x) ∨
      (∃ x ∈ xs, ∃ sg ∈ s.guids, bareGuid sg <:+: x) ∨
      (∃ sg ∈ s.guids, bareGuid sg ∈ cgs0) ∨
      (∃ sg ∈ s.guids, ∃ x ∈ xs, get_item_guid x lt false = .ok (bareGuid sg)) := by
  intro xs
  induction xs with
  | nil =>
    intro cgs0 h
    simp [trigB] at h
  | cons x xs ih =>
    intro cgs0 h
    cases hg : get_item_guid x lt false with
    | error e =>
      rw [trigB, hg] at h
      exact absurd h (by simp)
    | ok g =>
      rw [trigB, hg] at h
      rw [Bool.or_eq_true, Bool.or_eq_true] at h
      rcases h with (hA | hB) | hT
      · exact Or.inl ⟨x, List.mem_cons_self _ _, (containsSub_iff _ _).mp hA⟩
      · rw [List.any_eq_true] at hB
        rcases hB with ⟨sg, hsg, hsgc⟩
        rw [Bool.or_eq_true] at hsgc
        rcases hsgc with hinf | hmem
        · exact Or.inr (Or.inl ⟨x, List.mem_cons_self _ _, sg, hsg, (containsSub_iff _ _).mp hinf⟩)
        · rcases List.mem_append.mp ((contains_iff_mem _ _).mp hmem) with hc | hg2
          · exact Or.inr (Or.inr (Or.inl ⟨sg, hsg, hc⟩))
          · have : bareGuid sg = g := List.mem_singleton.mp hg2
            exact Or.inr (Or.inr (Or.inr ⟨sg, hsg, x, List.mem_cons_self _ _, by rw [this, hg]⟩))
      · rcases ih (cgs0 ++ [g]) hT with h1 | h2 | h3 | h4
        · rcases h1 with ⟨y, hy, hh⟩
          exact Or.inl ⟨y, List.mem_cons_of_mem _ hy, hh⟩
        · rcases h2 with ⟨y, hy, sg, hsg, hh⟩
          exact Or.inr (Or.inl ⟨y, List.mem_cons_of_mem _ hy, sg, hsg, hh⟩)
        · rcases h3 with ⟨sg, hsg, hmem⟩
          rcases List.mem_append.mp hmem with hc | hg2
          · exact Or.inr (Or.inr (Or.inl ⟨sg, hsg, hc⟩))
          · have : bareGuid sg = g := List.mem_singleton.mp hg2
            exact Or.inr (Or.inr (Or.inr ⟨sg, hsg, x, List.mem_cons_self _ _, by rw [this, hg]⟩))
        · rcases h4 with ⟨sg, hsg, y, hy, hh⟩
          exact Or.inr (Or.inr (Or.inr ⟨sg, hsg, y, List.mem_cons_of_mem _ hy, hh⟩))

theorem contains_eq_false_iff (l : List (List Char)) (a : List Char) :
    l.contains a = false ↔ ¬ a ∈ l := by
  rw [← contains_iff_mem]
  cases l.contains a <;> simp

theorem removeScan_spec (lt : List Char) (cfgItems : List (List Char)) (s : PlexItem)
    (b : Bool)
    (h : removeScan lt cfgItems s = .ok b) :
    b = shouldRemoveSpec lt cfgItems s := by
  unfold removeScan at h
  cases hscan : removeScanItems lt s ([], true) cfgItems with
  | error e =>
    rw [hscan] at h
    exact absurd h (by simp)
  | ok st =>
    rw [hscan] at h
    have hflag := removeScanItems_flag lt s cfgItems [] true st hscan
    have hok := removeScanItems_ok_each lt s cfgItems [] true st hscan
    have hb : b = (!(trigB lt s [] cfgItems) &&
        !((cfgItems.map stripTitle).contains s.title)) := by
      cases h
      rw [hflag]
      simp
    have htrig_iff : trigB lt s [] cfgItems = true ↔
        ((∃ x ∈ cfgItems, s.guid <:+: x) ∨
         (∃ x ∈ cfgItems, ∃ sg ∈ s.guids, bareGuid sg <:+: x) ∨
         (∃ sg ∈ s.guids, ∃ x ∈ cfgItems, get_item_guid x lt false = .ok (bareGuid sg))) := by
      constructor
      · intro ht
        rcases trigB_forward lt s cfgItems [] ht with h1 | h2 | h3 | h4
        · exact Or.inl h1
        · exact Or.inr (Or.inl h2)
        · rcases h3 with ⟨_, _, hmem⟩
          exact absurd hmem (List.not_mem_nil _)
        · exact Or.inr (Or.inr h4)
      · rintro (h1 | h2 | h3)
        · exact trigB_of_guid_occurs lt s cfgItems [] hok h1
        · exact trigB_of_bare_occurs lt s cfgItems [] hok h2
        · exact trigB_of_extract lt s cfgItems [] hok h3
    have hspec_iff : shouldRemoveSpec lt cfgItems s = true ↔
        ((∀ x ∈ cfgItems, ∀ sg ∈ s.guids, ¬ bareGuid sg <:+: x) ∧
         (∀ sg ∈ s.guids, ∀ x ∈ cfgItems, ¬ get_item_guid x lt false = .ok (bareGuid sg)) ∧
         (∀ x ∈ cfgItems, ¬ s.guid <:+: x) ∧
         ¬ s.title ∈ cfgItems.map stripTitle) := by
      unfold shouldRemoveSpec
      simp only [Bool.and_eq_true, List.all_eq_true, Bool.not_eq_true',
        containsSub_eq_false_iff, decide_eq_false_iff_not, contains_eq_false_iff]
      tauto
    rw [hb]
    cases hspec : shouldRemoveSpec lt cfgItems s with
    | true =>
      rcases hspec_iff.mp hspec with ⟨hc1, hc2, hc3, hc4⟩
      have htf : trigB lt s [] cfgItems = false := by
        cases ht : trigB lt s [] cfgItems
        · rfl
        · exfalso
          rcases htrig_iff.mp ht with h1 | h2 | h3
          · rcases h1 with ⟨x, hx, hi⟩
            exact hc3 x hx hi
          · rcases h2 with ⟨x, hx, sg, hsg, hi⟩
            exact hc1 x hx sg hsg hi
          · rcases h3 with ⟨sg, hsg, x, hx, hi⟩
            exact hc2 sg hsg x hx hi
      have hcf : (cfgItems.map stripTitle).contains s.title = false :=
        (contains_eq_false_iff _ _).mpr hc4
      rw [htf, hcf]
      rfl
    | false =>
      cases ht : trigB lt s [] cfgItems with
      | true => simp
      | false =>
        cases hct : (cfgItems.map stripTitle).contains s.title with
        | true => simp
        | false =>
          exfalso
          have : shouldRemoveSpec lt cfgItems s = true := by
            apply hspec_iff.mpr
            refine ⟨?_, ?_, ?_, (contains_eq_false_iff _ _).mp hct⟩
            · intro x hx sg hsg hi
              have := trigB_of_bare_occurs lt s cfgItems [] hok ⟨x, hx, sg, hsg, hi⟩
              rw [ht] at this
              exact absurd this (by simp)
            · intro sg hsg x hx hi
              have := trigB_of_extract lt s cfgItems [] hok ⟨sg, hsg, x, hx, hi⟩
              rw [ht] at this
              exact absurd this (by simp)
            · intro x hx hi
              have := trigB_of_guid_occurs lt s cfgItems [] hok ⟨x, hx, hi⟩
              rw [ht] at this
              exact absurd this (by simp)
          rw [hspec] at this
          exact absurd this (by simp)

theorem removePhase_spec (lib : Library) (cfgItems : List (List Char)) :
    ∀ (members marked : List PlexItem),
      removePhase lib cfgItems members = .ok marked →
      (∀ s ∈ members, lib.byGuid s.guid = some s) →
      marked = members.filter (shouldRemoveSpec lib.libType cfgItems) := by
  intro members
  induction members with
  | nil =>
    intro marked h _
    simp only [removePhase] at h
    cases h
    rfl
  | cons s rest ih =>
    intro marked h hg
    simp only [removePhase] at h
    cases hscan : removeScan lib.libType cfgItems s with
    | error e =>
      rw [hscan] at h
      exact absurd h (by simp)
    | ok b =>
      rw [hscan] at h
      have hb := removeScan_spec lib.libType cfgItems s b hscan
      subst hb
      cases hspec : shouldRemoveSpec lib.libType cfgItems s with
      | true =>
        rw [hspec] at h
        simp only [if_pos rfl] at h
        rw [hg s (List.mem_cons_self _ _)] at h
        cases hrest : removePhase lib cfgItems rest with
        | error e =>
          rw [hrest] at h
          exact absurd h (by simp)
        | ok tail =>
          rw [hrest] at h
          cases h
          rw [List.filter_cons_of_pos hspec]
          rw [ih tail hrest (fun z hz => hg z (List.mem_cons_of_mem _ hz))]
      | false =>
        rw [hspec] at h
        simp only [Bool.false_eq_true, if_false] at h
        rw [List.filter_cons_of_neg (by rw [hspec]; simp)]
        exact ih marked h (fun z hz => hg z (List.mem_cons_of_mem _ hz))

theorem mem_optFieldOp {α : Type} {mk : List α → PlexOp} {o : Option (List α)} {op : PlexOp}
    (h : op ∈ optFieldOp mk o) : ∃ a b, o = some (a :: b) ∧ op = mk (a :: b) := by
  rcases o with _ | v
  · simp [optFieldOp] at h
  · rcases v with _ | ⟨a, b⟩
    · simp [optFieldOp] at h
    · simp [optFieldOp] at h
      exact ⟨a, b, rfl, h⟩

theorem scalarPre_shape (cfg : CollConfig) (t : List Char) :
    ∀ op ∈ scalarPre cfg t,
      op.target = t ∧ isRemoveItemsOp op = false ∧ isCreateOp op = false ∧
      isLabelOp op = false := by
  intro op h
  unfold scalarPre at h
  rcases List.mem_append.mp h with h12 | h3
  · rcases List.mem_append.mp h12 with h1 | h2
    · rcases mem_optFieldOp h1 with ⟨a, b, _, rfl⟩
      simp [PlexOp.target, isRemoveItemsOp, isCreateOp, isLabelOp, isAddLabelOp, isRemoveLabelOp]
    · rcases mem_optFieldOp h2 with ⟨a, b, _, rfl⟩
      simp [PlexOp.target, isRemoveItemsOp, isCreateOp, isLabelOp, isAddLabelOp, isRemoveLabelOp]
  · rcases mem_optFieldOp h3 with ⟨a, b, _, rfl⟩
    simp [PlexOp.target, isRemoveItemsOp, isCreateOp, isLabelOp, isAddLabelOp, isRemoveLabelOp]

theorem scalarPost_shape (cfg : CollConfig) (t : List Char) :
    ∀ op ∈ scalarPost cfg t,
      op.target = t ∧ isRemoveItemsOp op = false ∧ isCreateOp op = false ∧
      isLabelOp op = false := by
  intro op h
  unfold scalarPost at h
  rcases List.mem_append.mp h with h12 | h3
  · rcases List.mem_append.mp h12 with h1 | h2
    · rcases mem_optFieldOp h1 with ⟨a, b, _, rfl⟩
      simp [PlexOp.target, isRemoveItemsOp, isCreateOp, isLabelOp, isAddLabelOp, isRemoveLabelOp]
    · rcases mem_optFieldOp h2 with ⟨a, b, _, rfl⟩
      simp [PlexOp.target, isRemoveItemsOp, isCreateOp, isLabelOp, isAddLabelOp, isRemoveLabelOp]
  · rcases mem_optFieldOp h3 with ⟨a, b, _, rfl⟩
    simp [PlexOp.target, isRemoveItemsOp, isCreateOp, isLabelOp, isAddLabelOp, isRemoveLabelOp]

theorem labelOps_shape (cfg : CollConfig) (d : PlexCollection) :
    ∀ op ∈ labelOps cfg d,
      op.target = d.title ∧ isRemoveItemsOp op = false ∧ isCreateOp op = false := by
  intro op h
  unfold labelOps at h
  rcases hl : cfg.labels with _ | v
  · rw [hl] at h
    simp at h
  · rcases v with _ | ⟨a, b⟩
    · rw [hl] at h
      simp at h
    · rw [hl] at h
      rcases List.mem_append.mp h with h1 | h2
      · by_cases hc : ((a :: b).filter (fun s => !(d.labels.contains s))) = []
        · rw [if_pos hc] at h1
          simp at h1
        · rw [if_neg hc] at h1
          rcases List.mem_singleton.mp h1 with rfl
          simp [PlexOp.target, isRemoveItemsOp, isCreateOp]
      · by_cases hc : (d.labels.filter (fun s => !((a :: b).contains s))) = []
        · rw [if_pos hc] at h2
          simp at h2
        · rw [if_neg hc] at h2
          rcases List.mem_singleton.mp h2 with rfl
          simp [PlexOp.target, isRemoveItemsOp, isCreateOp]

theorem editFieldOps_shape (cfg : CollConfig) (d : PlexCollection) :
    ∀ op ∈ editFieldOps cfg d,
      op.target = d.title ∧ isRemoveItemsOp op = false ∧ isCreateOp op = false := by
  intro op h
  unfold editFieldOps at h
  rcases List.mem_append.mp h with h12 | h3
  · rcases List.mem_append.mp h12 with h1 | h2
    · rcases scalarPre_shape cfg d.title op h1 with ⟨ht, h4, h5, _⟩
      exact ⟨ht, h4, h5⟩
    · exact labelOps_shape cfg d op h2
  · rcases scalarPost_shape cfg d.title op h3 with ⟨ht, h4, h5, _⟩
    exact ⟨ht, h4, h5⟩

theorem createFieldOps_shape (cfg : CollConfig) (t : List Char) :
    ∀ op ∈ createFieldOps cfg t,
      op.target = t ∧ isRemoveItemsOp op = false ∧ isCreateOp op = false := by
  intro op h
  unfold createFieldOps at h
  rcases List.mem_append.mp h with h12 | h3
  · rcases List.mem_append.mp h12 with h1 | h2
    · rcases scalarPre_shape cfg t op h1 with ⟨ht, h4, h5, _⟩
      exact ⟨ht, h4, h5⟩
    · rcases mem_optFieldOp h2 with ⟨a, b, _, rfl⟩
      simp [PlexOp.target, isRemoveItemsOp, isCreateOp]
  · rcases scalarPost_shape cfg t op h3 with ⟨ht, h4, h5, _⟩
    exact ⟨ht, h4, h5⟩

theorem editFieldOps_filter_removeItems (cfg : CollConfig) (d : PlexCollection) :
    (editFieldOps cfg d).filter isRemoveItemsOp = [] := by
  rw [List.filter_eq_nil_iff]
  intro op h
  rw [(editFieldOps_shape cfg d op h).2.1]
  simp

theorem syncExisting_ok (lib : Library) (cfg : CollConfig) (d : PlexCollection)
    (cfgItems : List (List Char)) (ops : List PlexOp)
    (h : syncExisting lib cfg d cfgItems = (ops, none)) :
    ∃ new marked,
      resolveNewItems lib (d.items.map PlexItem.title) cfgItems = .ok new ∧
      removePhase lib cfgItems d.items = .ok marked ∧
      ops = (if new = [] then [] else [PlexOp.addItems d.title new]) ++
            (if marked = [] then [] else [PlexOp.removeItems d.title marked]) ++
            editFieldOps cfg d := by
  unfold syncExisting at h
  cases hr : resolveNewItems lib (d.items.map PlexItem.title) cfgItems with
  | error e =>
    rw [hr] at h
    simp at h
  | ok new =>
    rw [hr] at h
    cases hm : removePhase lib cfgItems d.items with
    | error e =>
      rw [hm] at h
      simp at h
    | ok marked =>
      rw [hm] at h
      cases h
      exact ⟨new, marked, rfl, rfl, rfl⟩

theorem shouldRemoveSpec_iff (lt : List Char) (cfgItems : List (List Char)) (s : PlexItem) :
    shouldRemoveSpec lt cfgItems s = true ↔
      ((∀ x ∈ cfgItems, ∀ sg ∈ s.guids, ¬ bareGuid sg <:+: x) ∧
       (∀ sg ∈ s.guids, ∀ x ∈ cfgItems, ¬ get_item_guid x lt false = .ok (bareGuid sg)) ∧
       (∀ x ∈ cfgItems, ¬ s.guid <:+: x) ∧
       ¬ s.title ∈ cfgItems.map stripTitle) := by
  unfold shouldRemoveSpec
  simp only [Bool.and_eq_true, List.all_eq_true, Bool.not_eq_true',
    containsSub_eq_false_iff, decide_eq_false_iff_not, contains_eq_false_iff]
  tauto

/-- C1: in the remove phase of the update path of a regular collection with
a non-empty configured items list, a current member is marked for removal
exactly when none of its own external identifiers occurs in or is extracted
from any configured reference, its native guid occurs in no configured
reference, and its title equals no stripped configured reference; one
remove-items call is issued, carrying exactly the marked members, and only
when at least one member is marked.  The hypothesis on `byGuid` states that
re-fetching a member by its own guid returns that member. -/
theorem c1_remove_phase (lib : Library) (config : List (List Char × CollConfig))
    (cfg : CollConfig) (d : PlexCollection) (i0 : List Char) (is0 : List (List Char))
    (ops : List PlexOp)
    (hsm : d.smart = false)
    (hcfg : configLookup config d.title = some cfg)
    (hitems : cfg.items = some (i0 :: is0))
    (hrun : syncOne lib config d = (ops, none))
    (hguid : ∀ s ∈ d.items, lib.byGuid s.guid = some s) :
    (∀ s ∈ d.items, (shouldRemoveSpec lib.libType (i0 :: is0) s = true ↔
        ((∀ x ∈ i0 :: is0, ∀ sg ∈ s.guids, ¬ bareGuid sg <:+: x) ∧
         (∀ sg ∈ s.guids, ∀ x ∈ i0 :: is0,
            ¬ get_item_guid x lib.libType false = .ok (bareGuid sg)) ∧
         (∀ x ∈ i0 :: is0, ¬ s.guid <:+: x) ∧
         ¬ s.title ∈ (i0 :: is0).map stripTitle))) ∧
    ops.filter isRemoveItemsOp =
      (if d.items.filter (shouldRemoveSpec lib.libType (i0 :: is0)) = [] then []
       else [PlexOp.removeItems d.title
              (d.items.filter (shouldRemoveSpec lib.libType (i0 :: is0)))]) := by
  have hone : syncOne lib config d = syncExisting lib cfg d (i0 :: is0) := by
    unfold syncOne
    rw [hsm, hcfg]
    simp [hitems]
  rw [hone] at hrun
  obtain ⟨new, marked, hnew, hmar, hops⟩ := syncExisting_ok lib cfg d (i0 :: is0) ops hrun
  have hmf : marked = d.items.filter (shouldRemoveSpec lib.libType (i0 :: is0)) :=
    removePhase_spec lib (i0 :: is0) d.items marked hmar hguid
  constructor
  · intro s _
    exact shouldRemoveSpec_iff lib.libType (i0 :: is0) s
  · subst hops
    rw [List.filter_append, List.filter_append]
    have h1 : ((if new = [] then [] else [PlexOp.addItems d.title new]).filter
        isRemoveItemsOp) = [] := by
      split <;> simp [isRemoveItemsOp]
    have h2 : ((if marked = [] then [] else [PlexOp.removeItems d.title marked]).filter
        isRemoveItemsOp) =
        (if marked = [] then [] else [PlexOp.removeItems d.title marked]) := by
      split <;> simp [isRemoveItemsOp]
    rw [h1, h2, editFieldOps_filter_removeItems]
    rw [hmf]
    simp

theorem c1_remove_phase_witness :
    (∀ s ∈ [(⟨strL "Old", strL "og", [strL "imdb://tt9"]⟩ : PlexItem)],
      (⟨strL "movie",
        (fun g => if g = strL "tmdb://5" then some ⟨strL "New", strL "ng", [strL "tmdb://5"]⟩
                  else if g = strL "og" then some ⟨strL "Old", strL "og", [strL "imdb://tt9"]⟩
                  else none),
        fun _ => [], fun _ => none⟩ : Library).byGuid s.guid = some s) ∧
    syncOne
      ⟨strL "movie",
        (fun g => if g = strL "tmdb://5" then some ⟨strL "New", strL "ng", [strL "tmdb://5"]⟩
                  else if g = strL "og" then some ⟨strL "Old", strL "og", [strL "imdb://tt9"]⟩
                  else none),
        fun _ => [], fun _ => none⟩
      [(strL "C", { items := some [strL "New \x7btmdb-5\x7d"] })]
      ⟨strL "C", false, [⟨strL "Old", strL "og", [strL "imdb://tt9"]⟩], []⟩
      = ([PlexOp.addItems (strL "C") [⟨strL "New", strL "ng", [strL "tmdb://5"]⟩],
          PlexOp.removeItems (strL "C") [⟨strL "Old", strL "og", [strL "imdb://tt9"]⟩]], none) ∧
    ([PlexOp.addItems (strL "C") [⟨strL "New", strL "ng", [strL "tmdb://5"]⟩],
      PlexOp.removeItems (strL "C") [⟨strL "Old", strL "og", [strL "imdb://tt9"]⟩]].filter
        isRemoveItemsOp =
      (if ([(⟨strL "Old", strL "og", [strL "imdb://tt9"]⟩ : PlexItem)].filter
            (shouldRemoveSpec (strL "movie") [strL "New \x7btmdb-5\x7d"])) = [] then []
       else [PlexOp.removeItems (strL "C")
              ([(⟨strL "Old", strL "og", [strL "imdb://tt9"]⟩ : PlexItem)].filter
                (shouldRemoveSpec (strL "movie") [strL "New \x7btmdb-5\x7d"]))])) :=
  ⟨by decide, by decide,
    (c1_remove_phase
      ⟨strL "movie",
        (fun g => if g = strL "tmdb://5" then some ⟨strL "New", strL "ng", [strL "tmdb://5"]⟩
                  else if g = strL "og" then some ⟨strL "Old", strL "og", [strL "imdb://tt9"]⟩
                  else none),
        fun _ => [], fun _ => none⟩
      [(strL "C", { items := some [strL "New \x7btmdb-5\x7d"] })]
      { items := some [strL "New \x7btmdb-5\x7d"] }
      ⟨strL "C", false, [⟨strL "Old", strL "og", [strL "imdb://tt9"]⟩], []⟩
      (strL "New \x7btmdb-5\x7d") []
      [PlexOp.addItems (strL "C") [⟨strL "New", strL "ng", [strL "tmdb://5"]⟩],
       PlexOp.removeItems (strL "C") [⟨strL "Old", strL "og", [strL "imdb://tt9"]⟩]]
      (by decide) (by decide) (by decide) (by decide) (by decide)).2⟩

theorem isLabelOp_false_split {op : PlexOp} (h : isLabelOp op = false) :
    isAddLabelOp op = false ∧ isRemoveLabelOp op = false := by
  unfold isLabelOp at h
  exact ⟨by cases ha : isAddLabelOp op <;> simp_all,
         by cases hr : isRemoveLabelOp op <;> simp_all⟩

theorem scalarPre_filter_label (cfg : CollConfig) (t : List Char) (cls : PlexOp → Bool)
    (hcls : ∀ op, isLabelOp op = false → cls op = false) :
    (scalarPre cfg t).filter cls = [] := by
  rw [List.filter_eq_nil_iff]
  intro op h
  rw [hcls op (scalarPre_shape cfg t op h).2.2.2]
  simp

theorem scalarPost_filter_label (cfg : CollConfig) (t : List Char) (cls : PlexOp → Bool)
    (hcls : ∀ op, isLabelOp op = false → cls op = false) :
    (scalarPost cfg t).filter cls = [] := by
  rw [List.filter_eq_nil_iff]
  intro op h
  rw [hcls op (scalarPost_shape cfg t op h).2.2.2]
  simp

/-- C3, corrected: for an existing regular collection with non-empty
configured items, when the labels key is present and non-empty the add-label
call carries exactly the configured labels missing from the current tags and
the remove-label call exactly the current tags missing from the configured
list, each call issued only when its list is non-empty; when the labels key
is present but holds an empty list, the whole label block is skipped — no
label call at all is issued (the claim said all current labels would then be
removed, which the code does not do: an empty list is falsy in the guard at
src/main.py:435-436). -/
theorem c3_label_sync_amended (lib : Library) (config : List (List Char × CollConfig))
    (cfg : CollConfig) (d : PlexCollection) (i0 : List Char) (is0 : List (List Char))
    (ops : List PlexOp)
    (hsm : d.smart = false)
    (hcfg : configLookup config d.title = some cfg)
    (hitems : cfg.items = some (i0 :: is0))
    (hrun : syncOne lib config d = (ops, none)) :
    (∀ a b, cfg.labels = some (a :: b) →
      ops.filter isAddLabelOp =
        (if ((a :: b).filter (fun s => !(d.labels.contains s))) = [] then []
         else [PlexOp.addLabel d.title ((a :: b).filter (fun s => !(d.labels.contains s)))]) ∧
      ops.filter isRemoveLabelOp =
        (if (d.labels.filter (fun s => !((a :: b).contains s))) = [] then []
         else [PlexOp.removeLabel d.title
                (d.labels.filter (fun s => !((a :: b).contains s)))])) ∧
    (cfg.labels = some [] → ops.filter isLabelOp = []) := by
  have hone : syncOne lib config d = syncExisting lib cfg d (i0 :: is0) := by
    unfold syncOne
    rw [hsm, hcfg]
    simp [hitems]
  rw [hone] at hrun
  obtain ⟨new, marked, hnew, hmar, hops⟩ := syncExisting_ok lib cfg d (i0 :: is0) ops hrun
  subst hops
  have haddL : ∀ cls : PlexOp → Bool, cls (PlexOp.addItems d.title new) = false →
      ((if new = [] then [] else [PlexOp.addItems d.title new]).filter cls) = [] := by
    intro cls hc
    split
    · rfl
    · simp [hc]
  have hremL : ∀ cls : PlexOp → Bool, cls (PlexOp.removeItems d.title marked) = false →
      ((if marked = [] then [] else [PlexOp.removeItems d.title marked]).filter cls) = [] := by
    intro cls hc
    split
    · rfl
    · simp [hc]
  constructor
  · intro a b hl
    constructor
    · rw [List.filter_append, List.filter_append,
        haddL isAddLabelOp (by simp [isAddLabelOp]),
        hremL isAddLabelOp (by simp [isAddLabelOp])]
      unfold editFieldOps
      rw [List.filter_append, List.filter_append,
        scalarPre_filter_label cfg d.title isAddLabelOp
          (fun op h => (isLabelOp_false_split h).1),
        scalarPost_filter_label cfg d.title isAddLabelOp
          (fun op h => (isLabelOp_false_split h).1)]
      unfold labelOps
      rw [hl, List.filter_append]
      have h6 : ((if (d.labels.filter (fun s => !((a :: b).contains s))) = [] then []
          else [PlexOp.removeLabel d.title
                 (d.labels.filter (fun s => !((a :: b).contains s)))]).filter
            isAddLabelOp) = [] := by
        split
        · rfl
        · simp [isAddLabelOp]
      rw [h6]
      have h5 : ((if ((a :: b).filter (fun s => !(d.labels.contains s))) = [] then []
          else [PlexOp.addLabel d.title
                 ((a :: b).filter (fun s => !(d.labels.contains s)))]).filter
            isAddLabelOp) =
          (if ((a :: b).filter (fun s => !(d.labels.contains s))) = [] then []
           else [PlexOp.addLabel d.title
                  ((a :: b).filter (fun s => !(d.labels.contains s)))]) := by
        split
        · rfl
        · simp [isAddLabelOp]
      rw [h5]
      simp
    · rw [List.filter_append, List.filter_append,
        haddL isRemoveLabelOp (by simp [isRemoveLabelOp]),
        hremL isRemoveLabelOp (by simp [isRemoveLabelOp])]
      unfold editFieldOps
      rw [List.filter_append, List.filter_append,
        scalarPre_filter_label cfg d.title isRemoveLabelOp
          (fun op h => (isLabelOp_false_split h).2),
        scalarPost_filter_label cfg d.title isRemoveLabelOp
          (fun op h => (isLabelOp_false_split h).2)]
      unfold labelOps
      rw [hl, List.filter_append]
      have h5 : ((if ((a :: b).filter (fun s => !(d.labels.contains s))) = [] then []
          else [PlexOp.addLabel d.title
                 ((a :: b).filter (fun s => !(d.labels.contains s)))]).filter
            isRemoveLabelOp) = [] := by
        split
        · rfl
        · simp [isRemoveLabelOp]
      rw [h5]
      have h6 : ((if (d.labels.filter (fun s => !((a :: b).contains s))) = [] then []
          else [PlexOp.removeLabel d.title
                 (d.labels.filter (fun s => !((a :: b).contains s)))]).filter
            isRemoveLabelOp) =
          (if (d.labels.filter (fun s => !((a :: b).contains s))) = [] then []
           else [PlexOp.removeLabel d.title
                  (d.labels.filter (fun s => !((a :: b).contains s)))]) := by
        split
        · rfl
        · simp [isRemoveLabelOp]
      rw [h6]
      simp
  · intro hl
    rw [List.filter_append, List.filter_append,
      haddL isLabelOp (by simp [isLabelOp, isAddLabelOp, isRemoveLabelOp]),
      hremL isLabelOp (by simp [isLabelOp, isAddLabelOp, isRemoveLabelOp])]
    unfold editFieldOps
    rw [List.filter_append, List.filter_append,
      scalarPre_filter_label cfg d.title isLabelOp (fun op h => h),
      scalarPost_filter_label cfg d.title isLabelOp (fun op h => h)]
    unfold labelOps
    rw [hl]
    rfl

/-- Sample library for the C3 scenario: no guid hits, empty search. -/
def c3Lib : Library := ⟨strL "movie", fun _ => none, fun _ => [], fun _ => none⟩

/-- Sample config entry of the C3 counterexample: truthy items, labels key
present but empty. -/
def c3EmptyCfg : CollConfig := { items := some [strL "T"], labels := some [] }

/-- Sample collection of the C3 counterexample: one live label "A". -/
def c3Coll : PlexCollection := ⟨strL "C2", false, [⟨strL "T", strL "og", []⟩], [strL "A"]⟩

/-- C3, counterexample to the claim as stated: a live collection with label
"A" and a config entry whose labels key is present but empty — the update
path issues no operation at all for it, in particular no remove-labels call,
while the claim demands all current labels be removed unconditionally. -/
theorem c3_counterexample :
    c3Coll.labels = [strL "A"] ∧
    c3EmptyCfg.labels = some [] ∧
    syncOne c3Lib [(strL "C2", c3EmptyCfg)] c3Coll = ([], none) :=
  ⟨by decide, by decide, by decide⟩

/-- Sample config entry of the C3 witness: live labels A,B and configured
labels B,C, matching the example sentence of the specification. -/
def c3WitCfg : CollConfig := { items := some [strL "T"], labels := some [strL "B", strL "C"] }

/-- Sample collection of the C3 witness. -/
def c3WitColl : PlexCollection :=
  ⟨strL "C2", false, [⟨strL "T", strL "og", []⟩], [strL "A", strL "B"]⟩

theorem c3_label_sync_amended_witness :
    syncOne c3Lib [(strL "C2", c3WitCfg)] c3WitColl =
      ([PlexOp.addLabel (strL "C2") [strL "C"], PlexOp.removeLabel (strL "C2") [strL "A"]],
        none) ∧
    ([PlexOp.addLabel (strL "C2") [strL "C"],
      PlexOp.removeLabel (strL "C2") [strL "A"]].filter isAddLabelOp =
      (if (([strL "B", strL "C"]).filter (fun s => !(c3WitColl.labels.contains s))) = [] then []
       else [PlexOp.addLabel c3WitColl.title
              (([strL "B", strL "C"]).filter (fun s => !(c3WitColl.labels.contains s)))])) ∧
    ([PlexOp.addLabel (strL "C2") [strL "C"],
      PlexOp.removeLabel (strL "C2") [strL "A"]].filter isRemoveLabelOp =
      (if (c3WitColl.labels.filter (fun s => !(([strL "B", strL "C"]).contains s))) = [] then []
       else [PlexOp.removeLabel c3WitColl.title
              (c3WitColl.labels.filter (fun s => !(([strL "B", strL "C"]).contains s)))])) :=
  ⟨by decide,
    ((c3_label_sync_amended c3Lib [(strL "C2", c3WitCfg)] c3WitCfg c3WitColl
        (strL "T") []
        [PlexOp.addLabel (strL "C2") [strL "C"], PlexOp.removeLabel (strL "C2") [strL "A"]]
        (by decide) (by decide) (by decide) (by decide)).1
      (strL "B") [strL "C"] (by decide)).1,
    ((c3_label_sync_amended c3Lib [(strL "C2", c3WitCfg)] c3WitCfg c3WitColl
        (strL "T") []
        [PlexOp.addLabel (strL "C2") [strL "C"], PlexOp.removeLabel (strL "C2") [strL "A"]]
        (by decide) (by decide) (by decide) (by decide)).1
      (strL "B") [strL "C"] (by decide)).2⟩

theorem resolveItemsAcc_mem (lib : Library) :
    ∀ (items : List (List Char)) (resolved : List PlexItem),
      resolveItemsAcc lib items = .ok resolved →
      ∀ it, (it ∈ resolved ↔ ∃ i ∈ items, resolveItem lib i = .ok (some it)) := by
  intro items
  induction items with
  | nil =>
    intro resolved h it
    simp only [resolveItemsAcc] at h
    cases h
    simp
  | cons i is ih =>
    intro resolved h it
    simp only [resolveItemsAcc] at h
    cases hr : resolveItem lib i with
    | error e =>
      rw [hr] at h
      exact absurd h (by simp)
    | ok oi =>
      rw [hr] at h
      cases oi with
      | none =>
        simp only [] at h
        rw [ih resolved h it]
        constructor
        · rintro ⟨y, hy, hres⟩
          exact ⟨y, List.mem_cons_of_mem _ hy, hres⟩
        · rintro ⟨y, hy, hres⟩
          rcases List.mem_cons.mp hy with rfl | hmem
          · rw [hr] at hres
            exact absurd (Except.ok.inj hres) (by simp)
          · exact ⟨y, hmem, hres⟩
      | some it0 =>
        simp only [] at h
        cases hrest : resolveItemsAcc lib is with
        | error e =>
          rw [hrest] at h
          exact absurd h (by simp)
        | ok rest =>
          rw [hrest] at h
          cases h
          rw [List.mem_cons]
          constructor
          · rintro (rfl | hmem)
            · exact ⟨i, List.mem_cons_self _ _, hr⟩
            · rcases (ih rest hrest it).mp hmem with ⟨y, hy, hres⟩
              exact ⟨y, List.mem_cons_of_mem _ hy, hres⟩
          · rintro ⟨y, hy, hres⟩
            rcases List.mem_cons.mp hy with rfl | hmem
            · rw [hr] at hres
              exact Or.inl (Option.some.inj (Except.ok.inj hres)).symm
            · exact Or.inr ((ih rest hrest it).mpr ⟨y, hmem, hres⟩)

theorem createFieldOps_filter_create (cfg : CollConfig) (t : List Char) :
    (createFieldOps cfg t).filter isCreateOp = [] := by
  rw [List.filter_eq_nil_iff]
  intro op h
  rw [(createFieldOps_shape cfg t op h).2.2]
  simp

/-- C4: in the creation path, for a configured title not found live, a
config entry with no items key or an empty items list never leads to any
call; with a truthy items list, if zero references resolve nothing is issued
(an error is printed), and if at least one resolves exactly one create call
is issued whose item set is exactly the resolved items: an item is in it
exactly when some configured reference resolves to it, so unresolvable
references are excluded. -/
theorem c4_creation_guard (lib : Library) (t : List Char) (cfg : CollConfig)
    (hnf : lib.coll t = none) :
    ((cfg.items = none ∨ cfg.items = some []) → makeEntry lib (t, cfg) = ([], none, none)) ∧
    (∀ i0 is0 resolved, cfg.items = some (i0 :: is0) →
      resolveItemsAcc lib (i0 :: is0) = .ok resolved →
      (resolved = [] → makeEntry lib (t, cfg) = ([], none, none)) ∧
      (resolved ≠ [] →
        (makeEntry lib (t, cfg)).1.filter isCreateOp = [PlexOp.createCollection t resolved] ∧
        (∀ it, it ∈ resolved ↔ ∃ i ∈ i0 :: is0, resolveItem lib i = .ok (some it)))) := by
  constructor
  · intro hi
    unfold makeEntry
    rw [hnf]
    rcases hi with hi | hi <;> rw [hi]
  · intro i0 is0 resolved hitems hres
    constructor
    · intro hempty
      unfold makeEntry
      rw [hnf]
      simp only [hitems, hres, hempty]
      rfl
    · intro hne
      constructor
      · unfold makeEntry
        rw [hnf]
        simp only [hitems, hres, if_neg hne]
        rw [List.filter_cons_of_pos (by simp [isCreateOp])]
        rw [createFieldOps_filter_create]
      · exact resolveItemsAcc_mem lib (i0 :: is0) resolved hres

/-- Sample library for the C4 witness: empty guid table, the search finds
the item with title X. -/
def c4Lib : Library :=
  ⟨strL "movie", fun _ => none,
    (fun q => if q = strL "X" then [⟨strL "X", strL "xg", []⟩] else []),
    fun _ => none⟩

theorem c4_creation_guard_witness :
    c4Lib.coll (strL "A") = none ∧
    makeEntry c4Lib (strL "A", { items := none }) = ([], none, none) ∧
    resolveItemsAcc c4Lib [strL "X"] = .ok [⟨strL "X", strL "xg", []⟩] ∧
    (makeEntry c4Lib (strL "A", { items := some [strL "X"] })).1.filter isCreateOp =
      [PlexOp.createCollection (strL "A") [⟨strL "X", strL "xg", []⟩]] :=
  ⟨by decide,
    (c4_creation_guard c4Lib (strL "A") { items := none } (by decide)).1 (Or.inl (by decide)),
    by decide,
    (((c4_creation_guard c4Lib (strL "A") { items := some [strL "X"] } (by decide)).2
        (strL "X") [] [⟨strL "X", strL "xg", []⟩] (by decide) (by decide)).2
      (by decide)).1⟩

theorem makeEntry_found (lib : Library) (e : List Char × CollConfig) (c : PlexCollection)
    (hc : lib.coll e.1 = some c) : makeEntry lib e = ([], none, some c) := by
  unfold makeEntry
  rw [hc]

theorem makeEntry_noitems (lib : Library) (e : List Char × CollConfig)
    (hc : lib.coll e.1 = none) (hi : e.2.items = none ∨ e.2.items = some []) :
    makeEntry lib e = ([], none, none) := by
  unfold makeEntry
  rcases hi with hi | hi <;> rw [hc, hi]

theorem makeEntry_resolve_err (lib : Library) (e : List Char × CollConfig)
    (i : List Char) (is : List (List Char)) (err : PyError)
    (hc : lib.coll e.1 = none) (hi : e.2.items = some (i :: is))
    (hr : resolveItemsAcc lib (i :: is) = .error err) :
    makeEntry lib e = ([], some err, none) := by
  unfold makeEntry
  simp only [hc, hi, hr]

theorem makeEntry_resolved_nil (lib : Library) (e : List Char × CollConfig)
    (i : List Char) (is : List (List Char))
    (hc : lib.coll e.1 = none) (hi : e.2.items = some (i :: is))
    (hr : resolveItemsAcc lib (i :: is) = .ok []) :
    makeEntry lib e = ([], none, none) := by
  unfold makeEntry
  simp only [hc, hi, hr]
  rfl

theorem makeEntry_resolved (lib : Library) (e : List Char × CollConfig)
    (i : List Char) (is : List (List Char)) (resolved : List PlexItem)
    (hc : lib.coll e.1 = none) (hi : e.2.items = some (i :: is))
    (hr : resolveItemsAcc lib (i :: is) = .ok resolved) (hres : resolved ≠ []) :
    makeEntry lib e =
      (PlexOp.createCollection e.1 resolved :: createFieldOps e.2 e.1, none, none) := by
  unfold makeEntry
  simp only [hc, hi, hr]
  rw [if_neg hres]

theorem makeEntry_cases (lib : Library) (e : List Char × CollConfig) :
    makeEntry lib e = ([], none, none) ∨
    (∃ c, lib.coll e.1 = some c ∧ makeEntry lib e = ([], none, some c)) ∨
    (∃ err, makeEntry lib e = ([], some err, none)) ∨
    (∃ resolved, resolved ≠ [] ∧ lib.coll e.1 = none ∧
      makeEntry lib e =
        (PlexOp.createCollection e.1 resolved :: createFieldOps e.2 e.1, none, none)) := by
  cases hc : lib.coll e.1 with
  | some c => exact Or.inr (Or.inl ⟨c, rfl, makeEntry_found lib e c hc⟩)
  | none =>
    rcases hi : e.2.items with _ | ⟨_ | ⟨i, is⟩⟩
    · exact Or.inl (makeEntry_noitems lib e hc (Or.inl hi))
    · exact Or.inl (makeEntry_noitems lib e hc (Or.inr hi))
    · cases hr : resolveItemsAcc lib (i :: is) with
      | error err =>
        exact Or.inr (Or.inr (Or.inl ⟨err, makeEntry_resolve_err lib e i is err hc hi hr⟩))
      | ok resolved =>
        by_cases hres : resolved = []
        · subst hres
          exact Or.inl (makeEntry_resolved_nil lib e i is hc hi hr)
        · exact Or.inr (Or.inr (Or.inr ⟨resolved, hres, rfl,
            makeEntry_resolved lib e i is resolved hc hi hr hres⟩))

theorem makeEntry_ops_target (lib : Library) (e : List Char × CollConfig) :
    ∀ op ∈ (makeEntry lib e).1, op.target = e.1 := by
  intro op h
  rcases makeEntry_cases lib e with heq | ⟨c, _, heq⟩ | ⟨err, heq⟩ | ⟨resolved, _, _, heq⟩ <;>
    rw [heq] at h
  · exact absurd h (List.not_mem_nil _)
  · exact absurd h (List.not_mem_nil _)
  · exact absurd h (List.not_mem_nil _)
  · rcases List.mem_cons.mp h with rfl | hmem
    · rfl
    · exact (createFieldOps_shape e.2 e.1 op hmem).1

theorem makeEntry_create_origin (lib : Library) (e : List Char × CollConfig)
    (t : List Char) (its : List PlexItem)
    (h : PlexOp.createCollection t its ∈ (makeEntry lib e).1) :
    t = e.1 ∧ lib.coll e.1 = none := by
  rcases makeEntry_cases lib e with heq | ⟨c, _, heq⟩ | ⟨err, heq⟩ |
      ⟨resolved, _, hnone, heq⟩ <;> rw [heq] at h
  · exact absurd h (List.not_mem_nil _)
  · exact absurd h (List.not_mem_nil _)
  · exact absurd h (List.not_mem_nil _)
  · refine ⟨?_, hnone⟩
    rcases List.mem_cons.mp h with heq2 | hmem
    · exact ((PlexOp.createCollection.injEq _ _ _ _).mp heq2).1
    · have := (createFieldOps_shape e.2 e.1 _ hmem).2.2
      simp [isCreateOp] at this

theorem makeEntry_snd_snd (lib : Library) (e : List Char × CollConfig) :
    (makeEntry lib e).2.2 = lib.coll e.1 := by
  cases hc : lib.coll e.1 with
  | some c => rw [makeEntry_found lib e c hc]
  | none =>
    rcases hi : e.2.items with _ | ⟨_ | ⟨i, is⟩⟩
    · rw [makeEntry_noitems lib e hc (Or.inl hi)]
    · rw [makeEntry_noitems lib e hc (Or.inr hi)]
    · cases hr : resolveItemsAcc lib (i :: is) with
      | error err => rw [makeEntry_resolve_err lib e i is err hc hi hr]
      | ok resolved =>
        by_cases hres : resolved = []
        · subst hres
          rw [makeEntry_resolved_nil lib e i is hc hi hr]
        · rw [makeEntry_resolved lib e i is resolved hc hi hr hres]

theorem makeEntry_filter_target (lib : Library) (t : List Char) (c : PlexCollection)
    (hc : lib.coll t = some c) (e : List Char × CollConfig) :
    (makeEntry lib e).1.filter (fun op => decide (op.target = t)) = [] := by
  by_cases he : e.1 = t
  · rw [makeEntry_found lib e c (by rw [he]; exact hc)]
    rfl
  · rw [List.filter_eq_nil_iff]
    intro op hop
    rw [makeEntry_ops_target lib e op hop]
    simp [he]

theorem make_ops_filter_found (lib : Library) (t : List Char) (c : PlexCollection)
    (hc : lib.coll t = some c) :
    ∀ (config : List (List Char × CollConfig)) ops err tu,
      make_collections lib config = (ops, err, tu) →
      ops.filter (fun op => decide (op.target = t)) = [] := by
  intro config
  induction config with
  | nil =>
    intro ops err tu h
    cases h
    rfl
  | cons e es ih =>
    intro ops err tu h
    simp only [make_collections] at h
    rcases hme : makeEntry lib e with ⟨ops1, err1, found1⟩
    rw [hme] at h
    have h1 := makeEntry_filter_target lib t c hc e
    rw [hme] at h1
    cases err1 with
    | some err' =>
      cases h
      exact h1
    | none =>
      rcases hrec : make_collections lib es with ⟨ops2, r2, tu2⟩
      rw [hrec] at h
      cases h
      rw [List.filter_append]
      rw [h1, ih ops2 r2 tu2 hrec]
      rfl

theorem make_toUpdate (lib : Library) :
    ∀ (config : List (List Char × CollConfig)) ops tu,
      make_collections lib config = (ops, none, tu) →
      tu = config.filterMap (fun e => lib.coll e.1) := by
  intro config
  induction config with
  | nil =>
    intro ops tu h
    cases h
    rfl
  | cons e es ih =>
    intro ops tu h
    simp only [make_collections] at h
    rcases hme : makeEntry lib e with ⟨ops1, err1, found1⟩
    rw [hme] at h
    cases err1 with
    | some err' => exact absurd h (by simp)
    | none =>
      rcases hrec : make_collections lib es with ⟨ops2, r2, tu2⟩
      rw [hrec] at h
      have hr2 : r2 = none := by
        have := congrArg (fun p => p.2.1) h
        simpa using this
      subst hr2
      cases h
      have hfc : found1 = lib.coll e.1 := by
        have := makeEntry_snd_snd lib e
        rw [hme] at this
        exact this
      rw [List.filterMap_cons, ← hfc, ih ops2 tu2 hrec]
      cases found1 <;> rfl

theorem make_create_origin (lib : Library) :
    ∀ (config : List (List Char × CollConfig)) ops err tu (t : List Char)
      (its : List PlexItem),
      make_collections lib config = (ops, err, tu) →
      PlexOp.createCollection t its ∈ ops → lib.coll t = none := by
  intro config
  induction config with
  | nil =>
    intro ops err tu t its h hmem
    cases h
    exact absurd hmem (List.not_mem_nil _)
  | cons e es ih =>
    intro ops err tu t its h hmem
    simp only [make_collections] at h
    rcases hme : makeEntry lib e with ⟨ops1, err1, found1⟩
    rw [hme] at h
    cases err1 with
    | some err' =>
      cases h
      have h2 := makeEntry_create_origin lib e t its (by rw [hme]; exact hmem)
      rw [← h2.1] at h2
      exact h2.2
    | none =>
      rcases hrec : make_collections lib es with ⟨ops2, r2, tu2⟩
      rw [hrec] at h
      cases h
      rcases List.mem_append.mp hmem with h1 | h2
      · have h3 := makeEntry_create_origin lib e t its (by rw [hme]; exact h1)
        rw [← h3.1] at h3
        exact h3.2
      · exact ih ops2 r2 tu2 t its hrec h2

theorem syncExisting_ops_target (lib : Library) (cfg : CollConfig) (d : PlexCollection)
    (cfgItems : List (List Char)) :
    ∀ op ∈ (syncExisting lib cfg d cfgItems).1, op.target = d.title := by
  intro op h
  unfold syncExisting at h
  cases hr : resolveNewItems lib (d.items.map PlexItem.title) cfgItems with
  | error e =>
    rw [hr] at h
    exact absurd h (List.not_mem_nil _)
  | ok new =>
    rw [hr] at h
    cases hm : removePhase lib cfgItems d.items with
    | error e =>
      rw [hm] at h
      simp only [] at h
      by_cases hn : new = []
      · rw [if_pos hn] at h
        exact absurd h (List.not_mem_nil _)
      · rw [if_neg hn] at h
        rcases List.mem_singleton.mp h with rfl
        rfl
    | ok marked =>
      rw [hm] at h
      simp only [] at h
      rcases List.mem_append.mp h with h12 | h3
      · rcases List.mem_append.mp h12 with h1 | h2
        · by_cases hn : new = []
          · rw [if_pos hn] at h1
            exact absurd h1 (List.not_mem_nil _)
          · rw [if_neg hn] at h1
            rcases List.mem_singleton.mp h1 with rfl
            rfl
        · by_cases hn : marked = []
          · rw [if_pos hn] at h2
            exact absurd h2 (List.not_mem_nil _)
          · rw [if_neg hn] at h2
            rcases List.mem_singleton.mp h2 with rfl
            rfl
      · exact (editFieldOps_shape cfg d op h3).1

theorem syncOne_keyerr (lib : Library) (config : List (List Char × CollConfig))
    (d : PlexCollection) (hsm : d.smart = false)
    (hcf : configLookup config d.title = none) :
    syncOne lib config d = ([], some .keyError) := by
  unfold syncOne
  rw [if_neg (by simp [hsm]), hcf]

theorem syncOne_sync (lib : Library) (config : List (List Char × CollConfig))
    (d : PlexCollection) (cfg : CollConfig) (i : List Char) (is : List (List Char))
    (hsm : d.smart = false) (hcf : configLookup config d.title = some cfg)
    (hi : cfg.items = some (i :: is)) :
    syncOne lib config d = syncExisting lib cfg d (i :: is) := by
  unfold syncOne
  rw [if_neg (by simp [hsm]), hcf]
  simp only [hi]

theorem syncOne_delete (lib : Library) (config : List (List Char × CollConfig))
    (d : PlexCollection) (cfg : CollConfig) (hsm : d.smart = false)
    (hcf : configLookup config d.title = some cfg)
    (hi : cfg.items = none ∨ cfg.items = some []) :
    syncOne lib config d = ([PlexOp.delete d.title], none) := by
  unfold syncOne
  rw [if_neg (by simp [hsm]), hcf]
  rcases hi with hi | hi <;> simp only [hi]

theorem syncOne_smart (lib : Library) (config : List (List Char × CollConfig))
    (d : PlexCollection) (hsm : d.smart = true) :
    syncOne lib config d = ([], none) := by
  unfold syncOne
  rw [if_pos (by rw [hsm])]

theorem syncOne_ops_target (lib : Library) (config : List (List Char × CollConfig))
    (d : PlexCollection) :
    ∀ op ∈ (syncOne lib config d).1, op.target = d.title := by
  intro op h
  by_cases hsm : d.smart = true
  · rw [syncOne_smart lib config d hsm] at h
    exact absurd h (List.not_mem_nil _)
  · have hsm2 : d.smart = false := by
      cases hs : d.smart
      · rfl
      · exact absurd hs hsm
    cases hcf : configLookup config d.title with
    | none =>
      rw [syncOne_keyerr lib config d hsm2 hcf] at h
      exact absurd h (List.not_mem_nil _)
    | some cfg =>
      rcases hi : cfg.items with _ | ⟨_ | ⟨i, is⟩⟩
      · rw [syncOne_delete lib config d cfg hsm2 hcf (Or.inl hi)] at h
        rcases List.mem_singleton.mp h with rfl
        rfl
      · rw [syncOne_delete lib config d cfg hsm2 hcf (Or.inr hi)] at h
        rcases List.mem_singleton.mp h with rfl
        rfl
      · rw [syncOne_sync lib config d cfg i is hsm2 hcf hi] at h
        exact syncExisting_ops_target lib cfg d (i :: is) op h

theorem edit_filter_of_all (lib : Library) (config : List (List Char × CollConfig))
    (t : List Char) :
    ∀ (ds : List PlexCollection) ops err,
      edit_collections lib config ds = (ops, err) →
      (∀ d ∈ ds, (syncOne lib config d).1.filter (fun op => decide (op.target = t)) = []) →
      ops.filter (fun op => decide (op.target = t)) = [] := by
  intro ds
  induction ds with
  | nil =>
    intro ops err h _
    cases h
    rfl
  | cons d ds ih =>
    intro ops err h hall
    simp only [edit_collections] at h
    rcases hso : syncOne lib config d with ⟨ops1, err1⟩
    rw [hso] at h
    have h1 : ops1.filter (fun op => decide (op.target = t)) = [] := by
      have := hall d (List.mem_cons_self _ _)
      rw [hso] at this
      exact this
    cases err1 with
    | some e1 =>
      cases h
      exact h1
    | none =>
      rcases hrec : edit_collections lib config ds with ⟨ops2, r2⟩
      rw [hrec] at h
      cases h
      rw [List.filter_append, h1,
        ih ops2 r2 hrec (fun d2 hd2 => hall d2 (List.mem_cons_of_mem _ hd2))]
      rfl

theorem edit_filter_unique (lib : Library) (config : List (List Char × CollConfig))
    (t : List Char) (c : PlexCollection) (hct : c.title = t) :
    ∀ (ds : List PlexCollection) ops,
      edit_collections lib config ds = (ops, none) →
      c ∈ ds →
      (ds.map PlexCollection.title).Nodup →
      ops.filter (fun op => decide (op.target = t)) =
        (syncOne lib config c).1.filter (fun op => decide (op.target = t)) := by
  intro ds
  induction ds with
  | nil =>
    intro ops h hmem _
    exact absurd hmem (List.not_mem_nil _)
  | cons d ds ih =>
    intro ops h hmem hnodup
    simp only [edit_collections] at h
    rcases hso : syncOne lib config d with ⟨ops1, err1⟩
    rw [hso] at h
    cases err1 with
    | some e1 => exact absurd h (by simp)
    | none =>
      rcases hrec : edit_collections lib config ds with ⟨ops2, r2⟩
      rw [hrec] at h
      have hr2 : r2 = none := by
        have := congrArg Prod.snd h
        simpa using this
      subst hr2
      cases h
      rw [List.filter_append]
      rcases List.mem_cons.mp hmem with heq | hmem2
      · subst heq
        have h2 : ops2.filter (fun op => decide (op.target = t)) = [] := by
          apply edit_filter_of_all lib config t ds ops2 none hrec
          intro d2 hd2
          rw [List.filter_eq_nil_iff]
          intro op hop
          rw [syncOne_ops_target lib config d2 op hop]
          have hne : d2.title ≠ t := by
            intro hd2t
            have hmem3 : d2.title ∈ ds.map PlexCollection.title :=
              List.mem_map_of_mem _ hd2
            rw [hd2t] at hmem3
            have hnin := (List.nodup_cons.mp hnodup).1
            rw [hct] at hnin
            exact hnin hmem3
          simp [hne]
        have h1 : (syncOne lib config c).1 = ops1 := by
          rw [hso]
        rw [h2, h1, List.append_nil]
      · have hdne : d.title ≠ t := by
          intro hdt
          have hmem3 : c.title ∈ ds.map PlexCollection.title :=
            List.mem_map_of_mem _ hmem2
          rw [hct] at hmem3
          rw [← hdt] at hmem3
          exact (List.nodup_cons.mp hnodup).1 hmem3
        have h1 : ops1.filter (fun op => decide (op.target = t)) = [] := by
          rw [List.filter_eq_nil_iff]
          intro op hop
          have := syncOne_ops_target lib config d op (by rw [hso]; exact hop)
          rw [this]
          simp [hdne]
        rw [h1, ih ops2 hrec hmem2 (List.nodup_cons.mp hnodup).2]
        rfl

theorem configLookup_mem (config : List (List Char × CollConfig)) (t : List Char)
    (cfg : CollConfig) (h : configLookup config t = some cfg) : (t, cfg) ∈ config := by
  unfold configLookup at h
  cases hf : config.find? (fun e => decide (e.1 = t)) with
  | none =>
    rw [hf] at h
    exact absurd h (by simp)
  | some e =>
    rw [hf] at h
    have he2 : e.2 = cfg := by simpa using h
    have he1 : e.1 = t := by
      have := List.find?_some hf
      simpa using this
    have hmem := List.mem_of_find?_eq_some hf
    rw [← he1, ← he2]
    exact hmem

theorem tu_titles_sublist (lib : Library) (config : List (List Char × CollConfig))
    (htitle : ∀ u d, lib.coll u = some d → d.title = u) :
    ((config.filterMap (fun e => lib.coll e.1)).map PlexCollection.title).Sublist
      (config.map Prod.fst) := by
  induction config with
  | nil => simp
  | cons e es ih =>
    rw [List.filterMap_cons]
    cases hc : lib.coll e.1 with
    | none =>
      simp only [List.map_cons]
      exact ih.cons _
    | some dd =>
      simp only [List.map_cons]
      rw [htitle e.1 dd hc]
      exact ih.cons₂ _

/-- C2: an existing regular collection whose config entry has no items key
or an empty items list is deleted by the update path, and the whole run
(creation pass followed by update pass) issues no other call addressed to
it: the trace filtered to its title is exactly the one delete call. -/
theorem c2_empty_items_delete (lib : Library) (config : List (List Char × CollConfig))
    (t : List Char) (c : PlexCollection) (cfg : CollConfig) (ops : List PlexOp)
    (hnodup : (config.map Prod.fst).Nodup)
    (htitle : ∀ u d, lib.coll u = some d → d.title = u)
    (hc : lib.coll t = some c)
    (hsm : c.smart = false)
    (hcfg : configLookup config t = some cfg)
    (hitems : cfg.items = none ∨ cfg.items = some [])
    (hrun : runLibrary lib config = (ops, none)) :
    ops.filter (fun op => decide (op.target = t)) = [PlexOp.delete t] := by
  unfold runLibrary at hrun
  rcases hmk : make_collections lib config with ⟨ops1, err1, tu⟩
  rw [hmk] at hrun
  cases err1 with
  | some e1 =>
    have hrun2 : ((ops1, some e1) : List PlexOp × Option PyError) = (ops, none) := hrun
    exact absurd hrun2 (by simp)
  | none =>
    rcases hed : edit_collections lib config tu with ⟨ops2, err2⟩
    have hrun2 : (match edit_collections lib config tu with
        | (o2, r) => (ops1 ++ o2, r)) = (ops, none) := hrun
    rw [hed] at hrun2
    have hrun3 : ((ops1 ++ ops2, err2) : List PlexOp × Option PyError) = (ops, none) := hrun2
    have herr2 : err2 = none := by
      have := congrArg Prod.snd hrun3
      simpa using this
    subst herr2
    have hops : ops = ops1 ++ ops2 := by
      have := congrArg Prod.fst hrun3
      simpa using this.symm
    subst hops
    rw [List.filter_append]
    rw [make_ops_filter_found lib t c hc config ops1 none tu hmk]
    have hctitle : c.title = t := htitle t c hc
    have htu := make_toUpdate lib config ops1 tu hmk
    have hcmem : c ∈ tu := by
      rw [htu, List.mem_filterMap]
      exact ⟨(t, cfg), configLookup_mem config t cfg hcfg, hc⟩
    have hnod2 : (tu.map PlexCollection.title).Nodup := by
      rw [htu]
      exact (tu_titles_sublist lib config htitle).nodup hnodup
    rw [edit_filter_unique lib config t c hctitle tu ops2 hed hcmem hnod2]
    rw [syncOne_delete lib config c cfg hsm (by rw [hctitle]; exact hcfg) hitems]
    simp [PlexOp.target, hctitle]

/-- C5: a live smart collection never receives any call from either the
creation or the update pass: whatever the run produced (even a run cut
short by an exception), the trace filtered to the smart collection's title
is empty. -/
theorem c5_smart_untouched (lib : Library) (config : List (List Char × CollConfig))
    (t : List Char) (c : PlexCollection) (ops : List PlexOp) (err : Option PyError)
    (htitle : ∀ u d, lib.coll u = some d → d.title = u)
    (hc : lib.coll t = some c)
    (hsm : c.smart = true)
    (hrun : runLibrary lib config = (ops, err)) :
    ops.filter (fun op => decide (op.target = t)) = [] := by
  unfold runLibrary at hrun
  rcases hmk : make_collections lib config with ⟨ops1, err1, tu⟩
  rw [hmk] at hrun
  cases err1 with
  | some e1 =>
    have hrun2 : ((ops1, some e1) : List PlexOp × Option PyError) = (ops, err) := hrun
    have hops : ops = ops1 := by
      have := congrArg Prod.fst hrun2
      simpa using this.symm
    subst hops
    exact make_ops_filter_found lib t c hc config _ (some e1) tu hmk
  | none =>
    rcases hed : edit_collections lib config tu with ⟨ops2, err2⟩
    have hrun2 : (match edit_collections lib config tu with
        | (o2, r) => (ops1 ++ o2, r)) = (ops, err) := hrun
    rw [hed] at hrun2
    have hrun3 : ((ops1 ++ ops2, err2) : List PlexOp × Option PyError) = (ops, err) := hrun2
    have hops : ops = ops1 ++ ops2 := by
      have := congrArg Prod.fst hrun3
      simpa using this.symm
    subst hops
    rw [List.filter_append, make_ops_filter_found lib t c hc config ops1 none tu hmk]
    have h2 : ops2.filter (fun op => decide (op.target = t)) = [] := by
      apply edit_filter_of_all lib config t tu ops2 err2 hed
      intro d hd
      have htu := make_toUpdate lib config ops1 tu hmk
      rw [htu] at hd
      rcases List.mem_filterMap.mp hd with ⟨e, hemem, hecoll⟩
      have hdt : d.title = e.1 := htitle e.1 d hecoll
      by_cases het : e.1 = t
      · rw [het] at hecoll
        have hdc : d = c := Option.some.inj (hecoll.symm.trans hc)
        rw [hdc, syncOne_smart lib config c hsm]
        rfl
      · rw [List.filter_eq_nil_iff]
        intro op hop
        rw [syncOne_ops_target lib config d op hop, hdt]
        simp [het]
    rw [h2]
    rfl

/-- C10: the update list returned by the creation path holds exactly the
live collections found under configured titles; every created title was
absent from the live library, so no member of the update list carries it,
and the update pass issues no call addressed to a created title. -/
theorem c10_update_list (lib : Library) (config : List (List Char × CollConfig))
    (ops : List PlexOp) (tu : List PlexCollection)
    (htitle : ∀ u d, lib.coll u = some d → d.title = u)
    (hmk : make_collections lib config = (ops, none, tu)) :
    tu = config.filterMap (fun e => lib.coll e.1) ∧
    (∀ t its, PlexOp.createCollection t its ∈ ops → lib.coll t = none) ∧
    (∀ t its, PlexOp.createCollection t its ∈ ops → ∀ d ∈ tu, d.title ≠ t) ∧
    (∀ t its, PlexOp.createCollection t its ∈ ops →
      ∀ eops eerr, edit_collections lib config tu = (eops, eerr) →
        eops.filter (fun op => decide (op.target = t)) = []) := by
  have htu := make_toUpdate lib config ops tu hmk
  have hmemtitle : ∀ d ∈ tu, ∃ e, e ∈ config ∧ lib.coll e.1 = some d ∧ d.title = e.1 := by
    intro d hd
    rw [htu] at hd
    rcases List.mem_filterMap.mp hd with ⟨e, hemem, hecoll⟩
    exact ⟨e, hemem, hecoll, htitle e.1 d hecoll⟩
  refine ⟨htu, ?_, ?_, ?_⟩
  · intro t its hmem
    exact make_create_origin lib config ops none tu t its hmk hmem
  · intro t its hmem d hd
    have hnone := make_create_origin lib config ops none tu t its hmk hmem
    rcases hmemtitle d hd with ⟨e, _, hecoll, hdt⟩
    intro hdteq
    rw [hdt] at hdteq
    rw [hdteq] at hecoll
    rw [hecoll] at hnone
    exact absurd hnone (by simp)
  · intro t its hmem eops eerr hed
    have hnone := make_create_origin lib config ops none tu t its hmk hmem
    apply edit_filter_of_all lib config t tu eops eerr hed
    intro d hd
    rcases hmemtitle d hd with ⟨e, _, hecoll, hdt⟩
    have het : e.1 ≠ t := by
      intro h
      rw [h] at hecoll
      rw [hecoll] at hnone
      exact absurd hnone (by simp)
    rw [List.filter_eq_nil_iff]
    intro op hop
    rw [syncOne_ops_target lib config d op hop, hdt]
    simp [het]

/-- Sample live collection for the C2 witness. -/
def w2Coll : PlexCollection := ⟨strL "C", false, [], []⟩

/-- Sample library for the C2 witness. -/
def w2Lib : Library :=
  ⟨strL "movie", fun _ => none, fun _ => [],
    fun u => if u = strL "C" then some w2Coll else none⟩

/-- Sample config entry for the C2 witness: items key present but empty. -/
def w2Cfg : CollConfig := { items := some [] }

theorem c2_empty_items_delete_witness :
    runLibrary w2Lib [(strL "C", w2Cfg)] = ([PlexOp.delete (strL "C")], none) ∧
    [PlexOp.delete (strL "C")].filter (fun op => decide (op.target = strL "C"))
      = [PlexOp.delete (strL "C")] :=
  ⟨by decide,
    c2_empty_items_delete w2Lib [(strL "C", w2Cfg)] (strL "C") w2Coll w2Cfg
      [PlexOp.delete (strL "C")]
      (by decide)
      (by intro u d h
          simp only [w2Lib] at h
          by_cases hu : u = strL "C"
          · rw [if_pos hu] at h
            cases h
            rw [hu]
            decide
          · rw [if_neg hu] at h
            exact absurd h (by simp))
      (by decide) (by decide) (by decide) (Or.inr (by decide)) (by decide)⟩

/-- Sample smart collection for the C5 witness. -/
def w5Coll : PlexCollection := ⟨strL "S", true, [], []⟩

/-- Sample library for the C5 witness. -/
def w5Lib : Library :=
  ⟨strL "movie", fun _ => none, fun _ => [],
    fun u => if u = strL "S" then some w5Coll else none⟩

/-- Sample config entry for the C5 witness: a truthy items list, which the
smart-collection guard must nevertheless ignore. -/
def w5Cfg : CollConfig := { items := some [strL "X"] }

theorem c5_smart_untouched_witness :
    runLibrary w5Lib [(strL "S", w5Cfg)] = ([], none) ∧
    ([] : List PlexOp).filter (fun op => decide (op.target = strL "S")) = [] :=
  ⟨by decide,
    c5_smart_untouched w5Lib [(strL "S", w5Cfg)] (strL "S") w5Coll [] none
      (by intro u d h
          simp only [w5Lib] at h
          by_cases hu : u = strL "S"
          · rw [if_pos hu] at h
            cases h
            rw [hu]
            decide
          · rw [if_neg hu] at h
            exact absurd h (by simp))
      (by decide) (by decide) (by decide)⟩

/-- Sample item for the C10 witness. -/
def w10Item : PlexItem := ⟨strL "X", strL "xg", []⟩

/-- Sample live collection for the C10 witness. -/
def w10Coll : PlexCollection := ⟨strL "B", false, [], []⟩

/-- Sample library for the C10 witness: title B lives, title A does not. -/
def w10Lib : Library :=
  ⟨strL "movie", fun _ => none,
    (fun q => if q = strL "X" then [w10Item] else []),
    fun u => if u = strL "B" then some w10Coll else none⟩

/-- Sample configuration for the C10 witness. -/
def w10Config : List (List Char × CollConfig) :=
  [(strL "A", { items := some [strL "X"] }), (strL "B", { items := some [strL "B x"] })]

theorem c10_update_list_witness :
    make_collections w10Lib w10Config
      = ([PlexOp.createCollection (strL "A") [w10Item]], none, [w10Coll]) ∧
    [w10Coll] = w10Config.filterMap (fun e => w10Lib.coll e.1) ∧
    w10Lib.coll (strL "A") = none :=
  ⟨by decide,
    (c10_update_list w10Lib w10Config [PlexOp.createCollection (strL "A") [w10Item]]
      [w10Coll]
      (by intro u d h
          simp only [w10Lib] at h
          by_cases hu : u = strL "B"
          · rw [if_pos hu] at h
            cases h
            rw [hu]
            decide
          · rw [if_neg hu] at h
            exact absurd h (by simp))
      (by decide)).1,
    (c10_update_list w10Lib w10Config [PlexOp.createCollection (strL "A") [w10Item]]
      [w10Coll]
      (by intro u d h
          simp only [w10Lib] at h
          by_cases hu : u = strL "B"
          · rw [if_pos hu] at h
            cases h
            rw [hu]
            decide
          · rw [if_neg hu] at h
            exact absurd h (by simp))
      (by decide)).2.1 (strL "A") [w10Item] (by decide)⟩

/-- A YAML value as written by the dump. -/
inductive YamlVal
  | s (v : List Char)
  | b (v : Bool)
  | l (v : List (List Char))
deriving DecidableEq

/-- A live collection as the dump reads it: the names of its set fields,
its attributes, and its member items (src/main.py:520-542). -/
structure DumpCollection where
  title : List Char
  smart : Bool
  fields : List (List Char)
  titleSort : List Char
  labels : List (List Char)
  contentRating : List Char
  summary : List Char
  collectionMode : Int
  collectionSort : Int
  items : List PlexItem
deriving DecidableEq

/-- The mode_dict of src/main.py:508-513; `none` models the KeyError for a
value outside the table. -/
def mode_dict (m : Int) : Option (List Char) :=
  if m = -1 then some (strL "default")
  else if m = 0 then some (strL "hide")
  else if m = 1 then some (strL "hideItems")
  else if m = 2 then some (strL "showItems")
  else none

/-- The sort_dict of src/main.py:514-518. -/
def sort_dict (m : Int) : Option (List Char) :=
  if m = 0 then some (strL "release")
  else if m = 1 then some (strL "alpha")
  else if m = 2 then some (strL "custom")
  else none

/-- The entry `dump_collections` writes for one collection
(src/main.py:528-542), as the key/value list in insertion order: `smart`
always; `titleSort`, `labels`, `contentRating`, `summary` only when the
corresponding field name is reported as set; the poster line is commented
out in the source and never written; `mode`, `sort` and `items` always.
A collectionMode or collectionSort outside the tables raises KeyError. -/
def dump_collections_entry (c : DumpCollection) :
    Except PyError (List (List Char × YamlVal)) :=
  match mode_dict c.collectionMode with
  | none => .error .keyError
  | some m =>
    match sort_dict c.collectionSort with
    | none => .error .keyError
    | some so =>
      .ok ([(strL "smart", YamlVal.b c.smart)] ++
        (if c.fields.contains (strL "titleSort")
         then [(strL "titleSort", YamlVal.s c.titleSort)] else []) ++
        (if c.fields.contains (strL "label")
         then [(strL "labels", YamlVal.l c.labels)] else []) ++
        (if c.fields.contains (strL "contentRating")
         then [(strL "contentRating", YamlVal.s c.contentRating)] else []) ++
        (if c.fields.contains (strL "summary")
         then [(strL "summary", YamlVal.s c.summary)] else []) ++
        [(strL "mode", YamlVal.s m), (strL "sort", YamlVal.s so),
         (strL "items",
          YamlVal.l (c.items.map (fun x => x.title ++ [' '] ++ x.guid)))])

/-- C9: every successfully serialized collection entry never contains a
poster key, while the smart, mode, sort and items keys are always present. -/
theorem c9_dump_keys (c : DumpCollection) (e : List (List Char × YamlVal))
    (h : dump_collections_entry c = .ok e) :
    (¬ strL "poster" ∈ e.map Prod.fst) ∧
    strL "smart" ∈ e.map Prod.fst ∧
    strL "mode" ∈ e.map Prod.fst ∧
    strL "sort" ∈ e.map Prod.fst ∧
    strL "items" ∈ e.map Prod.fst := by
  unfold dump_collections_entry at h
  cases hm : mode_dict c.collectionMode with
  | none =>
    rw [hm] at h
    exact absurd h (by simp)
  | some m =>
    rw [hm] at h
    cases hs : sort_dict c.collectionSort with
    | none =>
      rw [hs] at h
      exact absurd h (by simp)
    | some so =>
      rw [hs] at h
      have he : e = [(strL "smart", YamlVal.b c.smart)] ++
          (if c.fields.contains (strL "titleSort")
           then [(strL "titleSort", YamlVal.s c.titleSort)] else []) ++
          (if c.fields.contains (strL "label")
           then [(strL "labels", YamlVal.l c.labels)] else []) ++
          (if c.fields.contains (strL "contentRating")
           then [(strL "contentRating", YamlVal.s c.contentRating)] else []) ++
          (if c.fields.contains (strL "summary")
           then [(strL "summary", YamlVal.s c.summary)] else []) ++
          [(strL "mode", YamlVal.s m), (strL "sort", YamlVal.s so),
           (strL "items",
            YamlVal.l (c.items.map (fun x => x.title ++ [' '] ++ x.guid)))] := by
        have := Except.ok.inj h
        exact this.symm
      subst he
      simp only [List.map_append]
      have hsub : ∀ k, k ∈ (List.map Prod.fst [(strL "smart", YamlVal.b c.smart)] ++
          List.map Prod.fst (if c.fields.contains (strL "titleSort")
            then [(strL "titleSort", YamlVal.s c.titleSort)] else []) ++
          List.map Prod.fst (if c.fields.contains (strL "label")
            then [(strL "labels", YamlVal.l c.labels)] else []) ++
          List.map Prod.fst (if c.fields.contains (strL "contentRating")
            then [(strL "contentRating", YamlVal.s c.contentRating)] else []) ++
          List.map Prod.fst (if c.fields.contains (strL "summary")
            then [(strL "summary", YamlVal.s c.summary)] else []) ++
          List.map Prod.fst [(strL "mode", YamlVal.s m), (strL "sort", YamlVal.s so),
            (strL "items",
             YamlVal.l (c.items.map (fun x => x.title ++ [' '] ++ x.guid)))]) →
          k ∈ [strL "smart", strL "titleSort", strL "labels", strL "contentRating",
               strL "summary", strL "mode", strL "sort", strL "items"] := by
        intro k hk
        rcases List.mem_append.mp hk with hk | h6
        · rcases List.mem_append.mp hk with hk | h5
          · rcases List.mem_append.mp hk with hk | h4
            · rcases List.mem_append.mp hk with hk | h3
              · rcases List.mem_append.mp hk with h1 | h2
                · simp at h1
                  subst h1
                  decide
                · revert h2
                  split <;> intro h2 <;> simp at h2
                  subst h2
                  decide
              · revert h3
                split <;> intro h3 <;> simp at h3
                subst h3
                decide
            · revert h4
              split <;> intro h4 <;> simp at h4
              subst h4
              decide
          · revert h5
            split <;> intro h5 <;> simp at h5
            subst h5
            decide
        · simp at h6
          rcases h6 with rfl | rfl | rfl <;> decide
      refine ⟨?_, ?_, ?_, ?_, ?_⟩
      · intro hmem
        exact absurd (hsub _ hmem) (by decide)
      · exact List.mem_append.mpr (Or.inl (List.mem_append.mpr (Or.inl
          (List.mem_append.mpr (Or.inl (List.mem_append.mpr (Or.inl
          (List.mem_append.mpr (Or.inl (List.mem_cons_self _ _))))))))))
      · exact List.mem_append.mpr (Or.inr (List.mem_cons_self _ _))
      · exact List.mem_append.mpr (Or.inr
          (List.mem_cons_of_mem _ (List.mem_cons_self _ _)))
      · exact List.mem_append.mpr (Or.inr
          (List.mem_cons_of_mem _ (List.mem_cons_of_mem _ (List.mem_cons_self _ _))))

theorem c9_dump_keys_witness :
    dump_collections_entry
      ⟨strL "C", false, [strL "titleSort"], strL "ts", [], [], [], -1, 0,
        [⟨strL "X", strL "xg", []⟩]⟩
      = .ok [(strL "smart", YamlVal.b false), (strL "titleSort", YamlVal.s (strL "ts")),
             (strL "mode", YamlVal.s (strL "default")),
             (strL "sort", YamlVal.s (strL "release")),
             (strL "items", YamlVal.l [strL "X xg"])] ∧
    (¬ strL "poster" ∈
      ([(strL "smart", YamlVal.b false), (strL "titleSort", YamlVal.s (strL "ts")),
        (strL "mode", YamlVal.s (strL "default")),
        (strL "sort", YamlVal.s (strL "release")),
        (strL "items", YamlVal.l [strL "X xg"])].map Prod.fst)) ∧
    strL "smart" ∈
      ([(strL "smart", YamlVal.b false), (strL "titleSort", YamlVal.s (strL "ts")),
        (strL "mode", YamlVal.s (strL "default")),
        (strL "sort", YamlVal.s (strL "release")),
        (strL "items", YamlVal.l [strL "X xg"])].map Prod.fst) :=
  ⟨by decide,
    (c9_dump_keys
      ⟨strL "C", false, [strL "titleSort"], strL "ts", [], [], [], -1, 0,
        [⟨strL "X", strL "xg", []⟩]⟩
      [(strL "smart", YamlVal.b false), (strL "titleSort", YamlVal.s (strL "ts")),
       (strL "mode", YamlVal.s (strL "default")),
       (strL "sort", YamlVal.s (strL "release")),
       (strL "items", YamlVal.l [strL "X xg"])]
      (by decide)).1,
    (c9_dump_keys
      ⟨strL "C", false, [strL "titleSort"], strL "ts", [], [], [], -1, 0,
        [⟨strL "X", strL "xg", []⟩]⟩
      [(strL "smart", YamlVal.b false), (strL "titleSort", YamlVal.s (strL "ts")),
       (strL "mode", YamlVal.s (strL "default")),
       (strL "sort", YamlVal.s (strL "release")),
       (strL "items", YamlVal.l [strL "X xg"])]
      (by decide)).2.1⟩
